import Mathlib

/-!
Shallow embedding of PrivateDnsConfiguration.cpp (Android DnsResolver),
the private-DNS (DNS-over-TLS) server validation engine.

Modelling conventions:
* The C++ std::map containers (mPrivateDnsModes, mPrivateDnsTransports and
  each per-network tracker) are embedded as association lists with a
  first-match lookup; std::map guarantees distinct keys, which theorems
  that iterate over a tracker take as an explicit hypothesis.
  Iteration order of the embedding is list order rather than key order;
  no claim below depends on the order in which distinct keys are visited.
* Socket addresses are abstract: parseServer is an external collaborator
  (getaddrinfo), so the servers argument of set carries the parse outcome
  directly, an Option Nat per input string (some addr = parses to addr).
* Side effects are threaded explicitly: observer callbacks
  (notifyValidationStateUpdate), validation events
  (sendPrivateDnsValidationEvent) and launched probe threads
  (startValidation) are collected in lists; the probe thread body itself is
  concurrency and is represented only by the ProbeRequest it was started
  with.
* Machine integers (int32_t netId, uint32_t mark) are embedded as Nat; the
  code never performs arithmetic on them, only equality and map keying.
-/

/-- Validation state of a private DNS server.
Modelled from the spec: the Validation enum is declared in a header that is
not part of src/; its constructors are taken from the spec's state-machine
description and from the uses in PrivateDnsConfiguration.cpp. -/
inductive Validation where
  | unknown_server
  | in_process
  | success
  | fail
  | success_but_expired
deriving DecidableEq

/-- Private DNS mode of a network. -/
inductive PrivateDnsMode where
  | OFF
  | OPPORTUNISTIC
  | STRICT
deriving DecidableEq

/-- Key identifying a configured server inside a network: socket address
plus provider name. -/
structure ServerIdentity where
  sockaddr : Nat
  provider : String
deriving DecidableEq

/-- A DnsTlsServer record as created by PrivateDnsConfiguration::set.
Modelled from the spec: the DnsTlsServer class is declared outside src/;
its attributes (address, name, certificate, mark, active flag, validation
state) follow the spec's IPrivateDnsServer description. A newly constructed
server is inactive and in state unknown_server, and it is a DoT server. -/
structure DnsTlsServer where
  addr : Nat
  name : String
  certificate : String
  mark : Nat
  active : Bool
  validationState : Validation
  dot : Bool
deriving DecidableEq

/-- Modelled from the spec: the validation mark of a server is the socket
mark under which its validation runs, i.e. the stored mark field. -/
def DnsTlsServer.validationMark (s : DnsTlsServer) : Nat := s.mark

/-- Audit log row (the wall-clock timestamp is external real time and is
omitted). -/
structure RecordEntry where
  netId : Nat
  serverIdentity : ServerIdentity
  state : Validation
deriving DecidableEq

/-- Observer callback payload of notifyValidationStateUpdate. -/
structure Notification where
  ip : Nat
  state : Validation
  netId : Nat
deriving DecidableEq

/-- Payload of sendPrivateDnsValidationEvent. -/
structure ValidationEvent where
  netId : Nat
  ip : Nat
  provider : String
  success : Bool
deriving DecidableEq

/-- A validation probe launched by startValidation; the detached thread is
represented by the request it was started with. -/
structure ProbeRequest where
  identity : ServerIdentity
  netId : Nat
  isRevalidation : Bool
deriving DecidableEq

/-- First-match lookup in an association list (std::map::find). -/
def alookup {α β : Type} [DecidableEq α] : List (α × β) → α → Option β
  | [], _ => none
  | (k, v) :: rest, a => if a = k then some v else alookup rest a

/-- Key membership test (std::map::find != end). -/
def acontains {α β : Type} [DecidableEq α] (l : List (α × β)) (a : α) : Bool :=
  (alookup l a).isSome

/-- Update the value stored at a key, leaving other entries unchanged. -/
def aupdate {α β : Type} [DecidableEq α] (l : List (α × β)) (a : α) (f : β → β) :
    List (α × β) :=
  l.map (fun p => if p.1 = a then (p.1, f p.2) else p)

/-- Insert or overwrite (std::map::operator[] assignment). -/
def ainsert {α β : Type} [DecidableEq α] (l : List (α × β)) (a : α) (v : β) :
    List (α × β) :=
  if acontains l a then aupdate l a (fun _ => v) else l ++ [(a, v)]

/-- Erase a key (std::map::erase). -/
def aerase {α β : Type} [DecidableEq α] (l : List (α × β)) (a : α) : List (α × β) :=
  l.filter (fun p => p.1 ≠ a)

/-- Per-network tracker: ServerIdentity to owned server. -/
abbrev PrivateDnsTracker := List (ServerIdentity × DnsTlsServer)

/-- The shared state of PrivateDnsConfiguration: mode map, tracker map,
optional observer, audit log. -/
structure PDCState where
  mPrivateDnsModes : List (Nat × PrivateDnsMode)
  mPrivateDnsTransports : List (Nat × PrivateDnsTracker)
  mObserver : Bool
  mPrivateDnsLog : List RecordEntry
deriving DecidableEq

namespace PrivateDnsConfiguration

/-- PrivateDnsConfiguration::notifyValidationStateUpdate: forwards the
committed state to the observer when one is set. -/
def notifyValidationStateUpdate (st : PDCState) (ip : Nat) (validation : Validation)
    (netId : Nat) : List Notification :=
  if st.mObserver then [Notification.mk ip validation netId] else []

/-- PrivateDnsConfiguration::getPrivateDnsLocked: look up a server by
network id and identity. -/
def getPrivateDnsLocked (st : PDCState) (identity : ServerIdentity) (netId : Nat) :
    Option DnsTlsServer :=
  match alookup st.mPrivateDnsTransports netId with
  | none => none
  | some tracker => alookup tracker identity

/-- PrivateDnsConfiguration::getPrivateDns: public wrapper (the lock is
implicit in the embedding). -/
def getPrivateDns (st : PDCState) (identity : ServerIdentity) (netId : Nat) :
    Option DnsTlsServer :=
  getPrivateDnsLocked st identity netId

/-- Store a (mutated) server back at its identity within a network. -/
def setServerAt (st : PDCState) (netId : Nat) (identity : ServerIdentity)
    (s : DnsTlsServer) : PDCState :=
  { st with mPrivateDnsTransports :=
      aupdate st.mPrivateDnsTransports netId (fun tr => ainsert tr identity s) }

/-- PrivateDnsConfiguration::updateServerState: commit a validation state on
the live server; on a missing network or server, notify fail and change
nothing. Returns the new state and the observer notifications emitted. -/
def updateServerState (st : PDCState) (identity : ServerIdentity) (state : Validation)
    (netId : Nat) : PDCState × List Notification :=
  match getPrivateDnsLocked st identity netId with
  | none => (st, notifyValidationStateUpdate st identity.sockaddr Validation.fail netId)
  | some server =>
      let st1 := setServerAt st netId identity { server with validationState := state }
      let st2 :=
        { st1 with mPrivateDnsLog :=
            st1.mPrivateDnsLog ++ [RecordEntry.mk netId identity state] }
      (st2, notifyValidationStateUpdate st identity.sockaddr state netId)

/-- PrivateDnsConfiguration::needsValidation. -/
def needsValidation (server : DnsTlsServer) : Bool :=
  if server.active = false then false
  else if server.validationState = Validation.unknown_server then true
  else if server.validationState = Validation.fail then true
  else if server.validationState = Validation.success_but_expired then true
  else false

/-- The identity under which set registers a freshly parsed server
(ServerIdentity(*server)). -/
def serverIdentityOf (s : DnsTlsServer) : ServerIdentity :=
  ServerIdentity.mk s.addr s.name

/-- The server object built for one parsed address in set. -/
def makeServer (addr : Nat) (name : String) (caCert : String) (mark : Nat) :
    DnsTlsServer :=
  DnsTlsServer.mk addr name caCert mark false Validation.unknown_server true

/-- The parse loop at the top of set, with its early return on a parse
failure: accumulate servers into the tmp tracker. -/
def buildTmpFrom (name : String) (caCert : String) (mark : Nat) :
    List (Option Nat) → PrivateDnsTracker → Option PrivateDnsTracker
  | [], tmp => some tmp
  | os :: rest, tmp =>
    match os with
    | none => none
    | some addr =>
      let server := makeServer addr name caCert mark
      buildTmpFrom name caCert mark rest (ainsert tmp (serverIdentityOf server) server)

/-- The parse loop at the top of set: build the tmp tracker, failing the
whole call if any entry is unparsable. -/
def buildTmp (servers : List (Option Nat)) (name : String) (caCert : String)
    (mark : Nat) : Option PrivateDnsTracker :=
  buildTmpFrom name caCert mark servers []

/-- Result of set: return code, new state, observer notifications, launched
probes. -/
structure SetResult where
  ret : Int
  st : PDCState
  notifs : List Notification
  probes : List ProbeRequest
deriving DecidableEq

/-- EINVAL errno value; set returns its negation on a parse failure. -/
def EINVAL : Int := 22

/-- Accumulator of the tracker loop in set. -/
structure LoopAcc where
  st : PDCState
  notifs : List Notification
  probes : List ProbeRequest
deriving DecidableEq

/-- One iteration of the tracker loop in set, for the server stored at the
given identity: recompute the active flag, degrade a deactivated successful
server to success_but_expired, and start a validation for servers that need
one. -/
def setLoopStep (netId : Nat) (tmp : PrivateDnsTracker) (acc : LoopAcc)
    (identity : ServerIdentity) : LoopAcc :=
  match getPrivateDnsLocked acc.st identity netId with
  | none => acc
  | some server =>
    let active := acontains tmp identity
    let mid : DnsTlsServer := { server with active := active }
    let st1 := setServerAt acc.st netId identity mid
    let acc2 :=
      if mid.active = false ∧ mid.validationState = Validation.success then
        let u := updateServerState st1 identity Validation.success_but_expired netId
        LoopAcc.mk u.1 (acc.notifs ++ u.2) acc.probes
      else LoopAcc.mk st1 acc.notifs acc.probes
    match getPrivateDnsLocked acc2.st identity netId with
    | none => acc2
    | some server2 =>
      if needsValidation server2 then
        let u := updateServerState acc2.st identity Validation.in_process netId
        LoopAcc.mk u.1 (acc2.notifs ++ u.2)
          (acc2.probes ++ [ProbeRequest.mk identity netId false])
      else acc2

/-- The tracker currently stored for a network (empty when absent). -/
def trackerOf (st : PDCState) (netId : Nat) : PrivateDnsTracker :=
  (alookup st.mPrivateDnsTransports netId).getD []

/-- mPrivateDnsTransports[netId]: default-construct the tracker when the
network has none yet. -/
def ensureTracker (st : PDCState) (netId : Nat) : PDCState :=
  if acontains st.mPrivateDnsTransports netId then st
  else { st with mPrivateDnsTransports := st.mPrivateDnsTransports ++ [(netId, [])] }

/-- The merge loop of set: add the servers of tmp that the tracker does not
contain yet; existing entries are kept. -/
def mergeNewServers (tracker : PrivateDnsTracker) (tmp : PrivateDnsTracker) :
    PrivateDnsTracker :=
  tmp.foldl (fun tr p => if acontains tr p.1 then tr else ainsert tr p.1 p.2) tracker

/-- Tail of set shared by the STRICT and OPPORTUNISTIC branches: create the
tracker, merge the new servers, then run the tracker loop. -/
def setWithMode (st : PDCState) (netId : Nat) (tmp : PrivateDnsTracker) : SetResult :=
  let st1 := ensureTracker st netId
  let st2 :=
    { st1 with mPrivateDnsTransports :=
        aupdate st1.mPrivateDnsTransports netId (fun tracker => mergeNewServers tracker tmp) }
  let keys := (trackerOf st2 netId).map Prod.fst
  let acc := keys.foldl (setLoopStep netId tmp) (LoopAcc.mk st2 [] [])
  SetResult.mk 0 acc.st acc.notifs acc.probes

/-- PrivateDnsConfiguration::set. -/
def set (st : PDCState) (netId : Nat) (mark : Nat) (servers : List (Option Nat))
    (name : String) (caCert : String) : SetResult :=
  match buildTmp servers name caCert mark with
  | none => SetResult.mk (-EINVAL) st [] []
  | some tmp =>
    if name ≠ "" then
      setWithMode
        { st with mPrivateDnsModes := ainsert st.mPrivateDnsModes netId PrivateDnsMode.STRICT }
        netId tmp
    else if tmp ≠ [] then
      setWithMode
        { st with mPrivateDnsModes :=
            ainsert st.mPrivateDnsModes netId PrivateDnsMode.OPPORTUNISTIC }
        netId tmp
    else
      SetResult.mk 0
        { st with
          mPrivateDnsModes := ainsert st.mPrivateDnsModes netId PrivateDnsMode.OFF,
          mPrivateDnsTransports := aerase st.mPrivateDnsTransports netId }
        [] []

/-- Snapshot returned by getStatus. -/
structure PrivateDnsStatus where
  mode : PrivateDnsMode
  serversMap : List (DnsTlsServer × Validation)
deriving DecidableEq

/-- PrivateDnsConfiguration::getStatus. -/
def getStatus (st : PDCState) (netId : Nat) : PrivateDnsStatus :=
  match alookup st.mPrivateDnsModes netId with
  | none => PrivateDnsStatus.mk PrivateDnsMode.OFF []
  | some mode =>
    let servers :=
      match alookup st.mPrivateDnsTransports netId with
      | none => []
      | some tracker =>
        (tracker.filter (fun p => p.2.dot && p.2.active)).map
          (fun p => (p.2, p.2.validationState))
    PrivateDnsStatus.mk mode servers

/-- PrivateDnsConfiguration::clear. -/
def clear (st : PDCState) (netId : Nat) : PDCState :=
  { st with
    mPrivateDnsModes := aerase st.mPrivateDnsModes netId,
    mPrivateDnsTransports := aerase st.mPrivateDnsTransports netId }

/-- Result of requestValidation: whether the call returned without error,
plus the new state and emitted effects. -/
structure RequestValidationResult where
  ok : Bool
  st : PDCState
  notifs : List Notification
  probes : List ProbeRequest
deriving DecidableEq

/-- PrivateDnsConfiguration::requestValidation. -/
def requestValidation (st : PDCState) (netId : Nat) (identity : ServerIdentity)
    (mark : Nat) : RequestValidationResult :=
  match alookup st.mPrivateDnsModes netId with
  | none => RequestValidationResult.mk false st [] []
  | some mode =>
    if mode ≠ PrivateDnsMode.OPPORTUNISTIC then RequestValidationResult.mk false st [] []
    else
      match getPrivateDnsLocked st identity netId with
      | none => RequestValidationResult.mk false st [] []
      | some server =>
        if server.active = false then RequestValidationResult.mk false st [] []
        else if server.validationState ≠ Validation.success then
          RequestValidationResult.mk false st [] []
        else if server.validationMark ≠ mark then
          RequestValidationResult.mk false st [] []
        else
          let u := updateServerState st identity Validation.in_process netId
          RequestValidationResult.mk true u.1 u.2 [ProbeRequest.mk identity netId true]

/-- Reevaluation decision constant (thread keeps probing). -/
def NEEDS_REEVALUATION : Bool := true

/-- Reevaluation decision constant (thread stops). -/
def DONT_REEVALUATE : Bool := false

/-- Result of recordPrivateDnsValidation: the reevaluation decision, the new
state, observer notifications and validation events emitted. -/
structure RecordResult where
  reeval : Bool
  st : PDCState
  notifs : List Notification
  events : List ValidationEvent
deriving DecidableEq

/-- PrivateDnsConfiguration::recordPrivateDnsValidation. -/
def recordPrivateDnsValidation (st : PDCState) (identity : ServerIdentity) (netId : Nat)
    (gotAnswer : Bool) (isRevalidation : Bool) (latencyTooHigh : Bool)
    (maxAttemptsReached : Bool) : RecordResult :=
  match alookup st.mPrivateDnsTransports netId with
  | none =>
    RecordResult.mk DONT_REEVALUATE st
      (notifyValidationStateUpdate st identity.sockaddr Validation.fail netId) []
  | some tracker =>
    match alookup st.mPrivateDnsModes netId with
    | none =>
      RecordResult.mk DONT_REEVALUATE st
        (notifyValidationStateUpdate st identity.sockaddr Validation.fail netId) []
    | some mode =>
      let reevaluationStatus0 : Bool :=
        if gotAnswer then
          (if latencyTooHigh = false then DONT_REEVALUATE else NEEDS_REEVALUATION)
        else if mode = PrivateDnsMode.OFF then DONT_REEVALUATE
        else if mode = PrivateDnsMode.OPPORTUNISTIC ∧ isRevalidation = false then
          DONT_REEVALUATE
        else NEEDS_REEVALUATION
      let reevaluationStatus1 :=
        if maxAttemptsReached then DONT_REEVALUATE else reevaluationStatus0
      let sr : Bool × Bool :=
        match alookup tracker identity with
        | none => (false, DONT_REEVALUATE)
        | some server =>
          if server.active = false then (false, DONT_REEVALUATE)
          else (gotAnswer, reevaluationStatus1)
      let succeededQuickly := sr.1 && !latencyTooHigh
      let events := [ValidationEvent.mk netId identity.sockaddr identity.provider
        succeededQuickly]
      if succeededQuickly then
        let u := updateServerState st identity Validation.success netId
        RecordResult.mk sr.2 u.1 u.2 events
      else
        let result :=
          if sr.2 = NEEDS_REEVALUATION then Validation.in_process else Validation.fail
        let u := updateServerState st identity result netId
        RecordResult.mk sr.2 u.1 u.2 events

/-- The validation state currently stored for an identity on a network. -/
def validationStateOf (st : PDCState) (netId : Nat) (identity : ServerIdentity) :
    Option Validation :=
  (getPrivateDnsLocked st identity netId).map (fun s => s.validationState)

/-- The tracker of a network has pairwise-distinct keys (an invariant of the
C++ std::map that the association-list embedding states explicitly). -/
def trackerKeysNodup (st : PDCState) (netId : Nat) : Prop :=
  ((trackerOf st netId).map Prod.fst).Nodup

/-- The state reached inside setWithMode after the tracker has been
created and the new servers merged, before the tracker loop runs. -/
def mergedState (st : PDCState) (netId : Nat) (tmp : PrivateDnsTracker) : PDCState :=
  let st1 := ensureTracker st netId
  { st1 with mPrivateDnsTransports :=
      aupdate st1.mPrivateDnsTransports netId (fun tracker => mergeNewServers tracker tmp) }

/-- The effect of one tracker-loop iteration of set on the stored server,
before the needs-validation check: recomputed active flag and possible
degradation of a deactivated successful server. -/
def stepServerMid (tmp : PrivateDnsTracker) (identity : ServerIdentity)
    (server : DnsTlsServer) : DnsTlsServer :=
  let mid : DnsTlsServer := { server with active := acontains tmp identity }
  if mid.active = false ∧ mid.validationState = Validation.success then
    { mid with validationState := Validation.success_but_expired }
  else mid

/-- The full effect of one tracker-loop iteration of set on the stored
server. -/
def stepServer (tmp : PrivateDnsTracker) (identity : ServerIdentity)
    (server : DnsTlsServer) : DnsTlsServer :=
  let s2 := stepServerMid tmp identity server
  if needsValidation s2 then { s2 with validationState := Validation.in_process } else s2

/-- The probes of a list that target a given identity. -/
def probesFor (identity : ServerIdentity) (ps : List ProbeRequest) : List ProbeRequest :=
  ps.filter (fun p => p.identity = identity)

/-- Sample identity used by witnesses: an opportunistic server at address 1. -/
def sampleIdentity : ServerIdentity := ServerIdentity.mk 1 ""

/-- Sample identity at address 2. -/
def sampleIdentityB : ServerIdentity := ServerIdentity.mk 2 ""

/-- Sample active validated opportunistic server at address 1. -/
def sampleServer : DnsTlsServer :=
  DnsTlsServer.mk 1 "" "c" 7 true Validation.success true

/-- Sample state: network 1 in opportunistic mode tracking sampleServer. -/
def sampleState : PDCState :=
  PDCState.mk [(1, PrivateDnsMode.OPPORTUNISTIC)] [(1, [(sampleIdentity, sampleServer)])]
    true []

/-- Sample state with no networks configured. -/
def emptyState : PDCState := PDCState.mk [] [] true []

end PrivateDnsConfiguration

/-! ### Association-list lemmas -/

theorem alookup_cons {α β : Type} [DecidableEq α] (k : α) (v : β) (rest : List (α × β))
    (a : α) : alookup ((k, v) :: rest) a = if a = k then some v else alookup rest a := rfl

theorem aupdate_cons {α β : Type} [DecidableEq α] (k : α) (v : β) (rest : List (α × β))
    (a : α) (f : β → β) :
    aupdate ((k, v) :: rest) a f =
      (if k = a then (k, f v) else (k, v)) :: aupdate rest a f := rfl

theorem alookup_append {α β : Type} [DecidableEq α] (l₁ l₂ : List (α × β)) (a : α) :
    alookup (l₁ ++ l₂) a =
      match alookup l₁ a with
      | some v => some v
      | none => alookup l₂ a := by
  induction l₁ with
  | nil => simp [alookup]
  | cons p rest ih =>
    obtain ⟨k, v⟩ := p
    by_cases h : a = k
    · simp [alookup_cons, h]
    · rw [List.cons_append, alookup_cons, if_neg h, alookup_cons, if_neg h, ih]

theorem alookup_aupdate_self {α β : Type} [DecidableEq α] (l : List (α × β)) (a : α)
    (f : β → β) : alookup (aupdate l a f) a = (alookup l a).map f := by
  induction l with
  | nil => rfl
  | cons p rest ih =>
    obtain ⟨k, v⟩ := p
    rw [aupdate_cons]
    by_cases hk : k = a
    · rw [if_pos hk]
      subst hk
      simp [alookup_cons]
    · rw [if_neg hk, alookup_cons, alookup_cons]
      have ha : ¬a = k := fun h => hk h.symm
      rw [if_neg ha, if_neg ha, ih]

theorem alookup_aupdate_ne {α β : Type} [DecidableEq α] (l : List (α × β)) (a b : α)
    (f : β → β) (hne : b ≠ a) : alookup (aupdate l a f) b = alookup l b := by
  induction l with
  | nil => rfl
  | cons p rest ih =>
    obtain ⟨k, v⟩ := p
    rw [aupdate_cons]
    by_cases hk : k = a
    · rw [if_pos hk]
      subst hk
      rw [alookup_cons, alookup_cons, if_neg hne, if_neg hne, ih]
    · rw [if_neg hk, alookup_cons, alookup_cons]
      by_cases hb : b = k
      · rw [if_pos hb, if_pos hb]
      · rw [if_neg hb, if_neg hb, ih]

theorem acontains_eq_true_iff {α β : Type} [DecidableEq α] (l : List (α × β)) (a : α) :
    acontains l a = true ↔ ∃ v, alookup l a = some v := by
  unfold acontains
  cases hl : alookup l a with
  | none => simp
  | some w => simp

theorem acontains_eq_false_iff {α β : Type} [DecidableEq α] (l : List (α × β)) (a : α) :
    acontains l a = false ↔ alookup l a = none := by
  unfold acontains
  cases hl : alookup l a with
  | none => simp
  | some w => simp

theorem alookup_ainsert_self {α β : Type} [DecidableEq α] (l : List (α × β)) (a : α)
    (v : β) : alookup (ainsert l a v) a = some v := by
  unfold ainsert
  by_cases hc : acontains l a = true
  · rw [if_pos hc, alookup_aupdate_self]
    obtain ⟨w, hw⟩ := (acontains_eq_true_iff l a).mp hc
    rw [hw]
    rfl
  · rw [if_neg hc, alookup_append]
    have hnone : alookup l a = none := by
      rw [← acontains_eq_false_iff]
      exact Bool.not_eq_true _ ▸ Bool.of_not_eq_true hc
    rw [hnone]
    simp [alookup_cons]

theorem alookup_ainsert_ne {α β : Type} [DecidableEq α] (l : List (α × β)) (a b : α)
    (v : β) (hne : b ≠ a) : alookup (ainsert l a v) b = alookup l b := by
  unfold ainsert
  by_cases hc : acontains l a = true
  · rw [if_pos hc]
    exact alookup_aupdate_ne l a b _ hne
  · rw [if_neg hc, alookup_append]
    cases hl : alookup l b with
    | none => simp [alookup_cons, hne, alookup]
    | some w => rfl

theorem alookup_aerase_self {α β : Type} [DecidableEq α] (l : List (α × β)) (a : α) :
    alookup (aerase l a) a = none := by
  induction l with
  | nil => rfl
  | cons p rest ih =>
    obtain ⟨k, v⟩ := p
    by_cases hk : k = a
    · subst hk
      simpa [aerase] using ih
    · have : aerase ((k, v) :: rest) a = (k, v) :: aerase rest a := by
        simp [aerase, hk]
      rw [this, alookup_cons, if_neg (fun h => hk h.symm), ih]

theorem mem_keys_of_alookup {α β : Type} [DecidableEq α] {l : List (α × β)} {a : α}
    {v : β} (h : alookup l a = some v) : a ∈ l.map Prod.fst := by
  induction l with
  | nil => simp [alookup] at h
  | cons p rest ih =>
    obtain ⟨k, w⟩ := p
    by_cases hk : a = k
    · subst hk; simp
    · rw [alookup_cons, if_neg hk] at h
      simp [ih h]

theorem alookup_ne_none_of_mem_keys {α β : Type} [DecidableEq α] {l : List (α × β)}
    {a : α} (h : a ∈ l.map Prod.fst) : alookup l a ≠ none := by
  induction l with
  | nil => simp at h
  | cons p rest ih =>
    obtain ⟨k, v⟩ := p
    by_cases hk : a = k
    · simp [alookup_cons, hk]
    · simp only [List.map_cons, List.mem_cons] at h
      rcases h with h | h
      · exact absurd h hk
      · simpa [alookup_cons, hk] using ih h

theorem aupdate_keys {α β : Type} [DecidableEq α] (l : List (α × β)) (a : α)
    (f : β → β) : (aupdate l a f).map Prod.fst = l.map Prod.fst := by
  induction l with
  | nil => rfl
  | cons p rest ih =>
    obtain ⟨k, v⟩ := p
    rw [aupdate_cons]
    by_cases hk : k = a
    · rw [if_pos hk]
      simpa using ih
    · rw [if_neg hk]
      simpa using ih

theorem ainsert_keys_of_contains {α β : Type} [DecidableEq α] (l : List (α × β))
    (a : α) (v : β) (h : acontains l a = true) :
    (ainsert l a v).map Prod.fst = l.map Prod.fst := by
  unfold ainsert
  rw [if_pos h]
  exact aupdate_keys l a _

theorem ainsert_keys_nodup {α β : Type} [DecidableEq α] (l : List (α × β)) (a : α)
    (v : β) (h : (l.map Prod.fst).Nodup) : ((ainsert l a v).map Prod.fst).Nodup := by
  unfold ainsert
  by_cases hc : acontains l a = true
  · rw [if_pos hc, aupdate_keys]
    exact h
  · rw [if_neg hc, List.map_append]
    rw [List.nodup_append]
    refine ⟨h, by simp, ?_⟩
    intro x hx hxmem
    have hxa : x = a := by simpa using hxmem
    subst hxa
    have hnone : alookup l x = none := by
      rw [← acontains_eq_false_iff]
      exact Bool.not_eq_true _ ▸ Bool.of_not_eq_true hc
    exact alookup_ne_none_of_mem_keys hx hnone

/-! ### State-level lemmas -/

namespace PrivateDnsConfiguration

theorem getPrivateDnsLocked_some_elim {st : PDCState} {identity : ServerIdentity}
    {netId : Nat} {server : DnsTlsServer}
    (h : getPrivateDnsLocked st identity netId = some server) :
    ∃ tr, alookup st.mPrivateDnsTransports netId = some tr ∧
      alookup tr identity = some server := by
  unfold getPrivateDnsLocked at h
  cases htr : alookup st.mPrivateDnsTransports netId with
  | none => rw [htr] at h; exact absurd h (by simp)
  | some tr => rw [htr] at h; exact ⟨tr, rfl, h⟩

theorem getPrivateDnsLocked_congr_transports {st st' : PDCState}
    (h : st.mPrivateDnsTransports = st'.mPrivateDnsTransports)
    (identity : ServerIdentity) (netId : Nat) :
    getPrivateDnsLocked st identity netId = getPrivateDnsLocked st' identity netId := by
  unfold getPrivateDnsLocked
  rw [h]

theorem getPrivateDnsLocked_setServerAt_self {st : PDCState} {netId : Nat}
    {identity : ServerIdentity} {s : DnsTlsServer} {tr : PrivateDnsTracker}
    (h : alookup st.mPrivateDnsTransports netId = some tr) :
    getPrivateDnsLocked (setServerAt st netId identity s) identity netId = some s := by
  unfold getPrivateDnsLocked setServerAt
  simp only
  rw [alookup_aupdate_self, h]
  simp [alookup_ainsert_self]

theorem getPrivateDnsLocked_setServerAt_ne {st : PDCState} {netId : Nat}
    {identity : ServerIdentity} {s : DnsTlsServer} (identity' : ServerIdentity)
    (netId' : Nat) (hne : identity' ≠ identity) :
    getPrivateDnsLocked (setServerAt st netId identity s) identity' netId' =
      getPrivateDnsLocked st identity' netId' := by
  unfold getPrivateDnsLocked setServerAt
  simp only
  by_cases hn : netId' = netId
  · subst hn
    rw [alookup_aupdate_self]
    cases htr : alookup st.mPrivateDnsTransports netId' with
    | none => rfl
    | some tr => simp [alookup_ainsert_ne tr identity identity' s hne]
  · rw [alookup_aupdate_ne _ _ _ _ hn]

theorem updateServerState_of_none {st : PDCState} {identity : ServerIdentity}
    {state : Validation} {netId : Nat}
    (h : getPrivateDnsLocked st identity netId = none) :
    updateServerState st identity state netId =
      (st, notifyValidationStateUpdate st identity.sockaddr Validation.fail netId) := by
  unfold updateServerState
  rw [h]

theorem updateServerState_modes (st : PDCState) (identity : ServerIdentity)
    (state : Validation) (netId : Nat) :
    (updateServerState st identity state netId).1.mPrivateDnsModes =
      st.mPrivateDnsModes := by
  unfold updateServerState
  cases h : getPrivateDnsLocked st identity netId <;> rfl

theorem updateServerState_observer (st : PDCState) (identity : ServerIdentity)
    (state : Validation) (netId : Nat) :
    (updateServerState st identity state netId).1.mObserver = st.mObserver := by
  unfold updateServerState
  cases h : getPrivateDnsLocked st identity netId <;> rfl

theorem getPrivateDnsLocked_updateServerState_self {st : PDCState}
    {identity : ServerIdentity} {netId : Nat} {server : DnsTlsServer}
    (h : getPrivateDnsLocked st identity netId = some server) (state : Validation) :
    getPrivateDnsLocked (updateServerState st identity state netId).1 identity netId =
      some { server with validationState := state } := by
  obtain ⟨tr, htr, _⟩ := getPrivateDnsLocked_some_elim h
  unfold updateServerState
  rw [h]
  simp only
  calc getPrivateDnsLocked _ identity netId
      = getPrivateDnsLocked
          (setServerAt st netId identity { server with validationState := state })
          identity netId := getPrivateDnsLocked_congr_transports rfl identity netId
    _ = some { server with validationState := state } :=
        getPrivateDnsLocked_setServerAt_self htr

theorem getPrivateDnsLocked_updateServerState_ne (st : PDCState)
    (identity : ServerIdentity) (state : Validation) (netId : Nat)
    (identity' : ServerIdentity) (netId' : Nat) (hne : identity' ≠ identity) :
    getPrivateDnsLocked (updateServerState st identity state netId).1 identity' netId' =
      getPrivateDnsLocked st identity' netId' := by
  unfold updateServerState
  cases h : getPrivateDnsLocked st identity netId with
  | none => rfl
  | some server =>
    simp only
    calc getPrivateDnsLocked _ identity' netId'
        = getPrivateDnsLocked
            (setServerAt st netId identity { server with validationState := state })
            identity' netId' := getPrivateDnsLocked_congr_transports rfl identity' netId'
      _ = getPrivateDnsLocked st identity' netId' :=
          getPrivateDnsLocked_setServerAt_ne identity' netId' hne

theorem validationStateOf_updateServerState_self {st : PDCState}
    {identity : ServerIdentity} {netId : Nat} {server : DnsTlsServer}
    (h : getPrivateDnsLocked st identity netId = some server) (state : Validation) :
    validationStateOf (updateServerState st identity state netId).1 netId identity =
      some state := by
  unfold validationStateOf
  rw [getPrivateDnsLocked_updateServerState_self h state]
  rfl

end PrivateDnsConfiguration

/-! ### Lemmas about the parse loop -/

theorem mem_of_alookup {α β : Type} [DecidableEq α] {l : List (α × β)} {a : α} {v : β}
    (h : alookup l a = some v) : (a, v) ∈ l := by
  induction l with
  | nil => simp [alookup] at h
  | cons p rest ih =>
    obtain ⟨k, w⟩ := p
    by_cases hk : a = k
    · subst hk
      rw [alookup_cons, if_pos rfl] at h
      simp only [Option.some_inj] at h
      subst h
      simp
    · rw [alookup_cons, if_neg hk] at h
      simp [ih h]

theorem mem_ainsert {α β : Type} [DecidableEq α] {l : List (α × β)} {a : α} {v : β}
    {p : α × β} (h : p ∈ ainsert l a v) : p ∈ l ∨ p = (a, v) := by
  unfold ainsert at h
  by_cases hc : acontains l a = true
  · rw [if_pos hc] at h
    unfold aupdate at h
    rw [List.mem_map] at h
    obtain ⟨q, hq, hpq⟩ := h
    by_cases hqa : q.1 = a
    · rw [if_pos hqa] at hpq
      right
      rw [← hpq, hqa]
    · rw [if_neg hqa] at hpq
      left
      rw [← hpq]
      exact hq
  · rw [if_neg hc] at h
    rw [List.mem_append] at h
    rcases h with h | h
    · exact Or.inl h
    · right
      simpa using h

theorem ainsert_ne_nil {α β : Type} [DecidableEq α] (l : List (α × β)) (a : α) (v : β) :
    ainsert l a v ≠ [] := by
  unfold ainsert
  by_cases hc : acontains l a = true
  · rw [if_pos hc]
    intro h
    have := congrArg List.length h
    unfold aupdate at this
    simp at this
    subst this
    simp [acontains, alookup] at hc
  · rw [if_neg hc]
    simp

namespace PrivateDnsConfiguration

theorem buildTmpFrom_of_mem_none {name caCert : String} {mark : Nat}
    {servers : List (Option Nat)} (h : none ∈ servers) (tmp : PrivateDnsTracker) :
    buildTmpFrom name caCert mark servers tmp = none := by
  induction servers generalizing tmp with
  | nil => simp at h
  | cons os rest ih =>
    cases os with
    | none => rfl
    | some addr =>
      simp only [List.mem_cons] at h
      rcases h with h | h
      · exact absurd h (by simp)
      · exact ih h _

theorem buildTmpFrom_isSome {name caCert : String} {mark : Nat}
    {servers : List (Option Nat)} (h : ∀ os ∈ servers, os ≠ none)
    (tmp : PrivateDnsTracker) :
    ∃ t, buildTmpFrom name caCert mark servers tmp = some t := by
  induction servers generalizing tmp with
  | nil => exact ⟨tmp, rfl⟩
  | cons os rest ih =>
    cases os with
    | none => exact absurd rfl (h none (by simp))
    | some addr =>
      exact ih (fun x hx => h x (List.mem_cons_of_mem _ hx)) _

theorem buildTmpFrom_ne_nil {name caCert : String} {mark : Nat}
    {servers : List (Option Nat)} {tmp0 t : PrivateDnsTracker}
    (h : buildTmpFrom name caCert mark servers tmp0 = some t) (hne : tmp0 ≠ []) :
    t ≠ [] := by
  induction servers generalizing tmp0 with
  | nil =>
    simp only [buildTmpFrom, Option.some_inj] at h
    subst h
    exact hne
  | cons os rest ih =>
    cases os with
    | none => simp [buildTmpFrom] at h
    | some addr => exact ih h (ainsert_ne_nil _ _ _)

theorem buildTmp_ne_nil {name caCert : String} {mark : Nat}
    {servers : List (Option Nat)} {t : PrivateDnsTracker}
    (h : buildTmp servers name caCert mark = some t) (hs : servers ≠ []) : t ≠ [] := by
  unfold buildTmp at h
  cases servers with
  | nil => exact absurd rfl hs
  | cons os rest =>
    cases os with
    | none => simp [buildTmpFrom] at h
    | some addr =>
      simp only [buildTmpFrom] at h
      exact buildTmpFrom_ne_nil h (ainsert_ne_nil _ _ _)

theorem buildTmpFrom_values {name caCert : String} {mark : Nat}
    {servers : List (Option Nat)} {tmp0 t : PrivateDnsTracker}
    (h : buildTmpFrom name caCert mark servers tmp0 = some t)
    (h0 : ∀ p ∈ tmp0, p.2.name = name ∧ p.2.certificate = caCert ∧ p.2.mark = mark ∧
      p.2.active = false ∧ p.2.validationState = Validation.unknown_server ∧
      p.2.dot = true ∧ p.1 = serverIdentityOf p.2) :
    ∀ p ∈ t, p.2.name = name ∧ p.2.certificate = caCert ∧ p.2.mark = mark ∧
      p.2.active = false ∧ p.2.validationState = Validation.unknown_server ∧
      p.2.dot = true ∧ p.1 = serverIdentityOf p.2 := by
  induction servers generalizing tmp0 with
  | nil =>
    simp only [buildTmpFrom, Option.some_inj] at h
    subst h
    exact h0
  | cons os rest ih =>
    cases os with
    | none => simp [buildTmpFrom] at h
    | some addr =>
      refine ih h ?_
      intro p hp
      rcases mem_ainsert hp with hmem | heq
      · exact h0 p hmem
      · subst heq
        simp [makeServer, serverIdentityOf]

theorem buildTmp_values {name caCert : String} {mark : Nat}
    {servers : List (Option Nat)} {t : PrivateDnsTracker}
    (h : buildTmp servers name caCert mark = some t) :
    ∀ p ∈ t, p.2.name = name ∧ p.2.certificate = caCert ∧ p.2.mark = mark ∧
      p.2.active = false ∧ p.2.validationState = Validation.unknown_server ∧
      p.2.dot = true ∧ p.1 = serverIdentityOf p.2 :=
  buildTmpFrom_values h (by simp)

theorem buildTmpFrom_keys_nodup {name caCert : String} {mark : Nat}
    {servers : List (Option Nat)} {tmp0 t : PrivateDnsTracker}
    (h : buildTmpFrom name caCert mark servers tmp0 = some t)
    (h0 : (tmp0.map Prod.fst).Nodup) : (t.map Prod.fst).Nodup := by
  induction servers generalizing tmp0 with
  | nil =>
    simp only [buildTmpFrom, Option.some_inj] at h
    subst h
    exact h0
  | cons os rest ih =>
    cases os with
    | none => simp [buildTmpFrom] at h
    | some addr => exact ih h (ainsert_keys_nodup _ _ _ h0)

end PrivateDnsConfiguration

/-! ### Claim C10 (updateServerState on missing network or server) -/

namespace PrivateDnsConfiguration

/-- C10: when the network or the server identity is no longer present,
updateServerState notifies the observer (if set) with state fail regardless
of the requested state, modifies nothing, and appends no audit-log entry; an
audit-log entry is appended exactly when the state was committed on an
existing server. -/
theorem updateServerState_missing_spec (st : PDCState) (identity : ServerIdentity)
    (state : Validation) (netId : Nat) :
    (getPrivateDnsLocked st identity netId = none →
      (updateServerState st identity state netId).1 = st ∧
      (updateServerState st identity state netId).2 =
        (if st.mObserver then [Notification.mk identity.sockaddr Validation.fail netId]
         else [])) ∧
    (∀ server, getPrivateDnsLocked st identity netId = some server →
      (updateServerState st identity state netId).1.mPrivateDnsLog =
        st.mPrivateDnsLog ++ [RecordEntry.mk netId identity state]) := by
  constructor
  · intro h
    rw [updateServerState_of_none h]
    exact ⟨rfl, rfl⟩
  · intro server h
    unfold updateServerState
    rw [h]
    rfl

/-- C10 witness: in the sample state, network 1 exists but the server at
address 2 does not, so updateServerState changes nothing and notifies fail. -/
theorem updateServerState_missing_spec_witness :
    (updateServerState sampleState sampleIdentityB Validation.success 1).1 =
      sampleState ∧
    (updateServerState sampleState sampleIdentityB Validation.success 1).2 =
      (if sampleState.mObserver then
        [Notification.mk sampleIdentityB.sockaddr Validation.fail 1] else []) :=
  (updateServerState_missing_spec sampleState sampleIdentityB Validation.success 1).1
    (by decide)

end PrivateDnsConfiguration

/-! ### Claim C6 (set aborts on an unparsable address) -/

namespace PrivateDnsConfiguration

/-- C6: if any server address fails to parse, set returns -EINVAL and leaves
the whole shared state exactly as it was, launching no probe and emitting no
notification. -/
theorem set_parse_error_spec (st : PDCState) (netId : Nat) (mark : Nat)
    (servers : List (Option Nat)) (name : String) (caCert : String)
    (h : none ∈ servers) :
    set st netId mark servers name caCert = SetResult.mk (-EINVAL) st [] [] := by
  unfold set
  rw [show buildTmp servers name caCert mark = none from
    buildTmpFrom_of_mem_none h []]

/-- C6 witness: a concrete call with an unparsable second address changes
nothing about the sample state. -/
theorem set_parse_error_spec_witness :
    set sampleState 1 9 [some 2, none] "x" "cert" =
      SetResult.mk (-EINVAL) sampleState [] [] :=
  set_parse_error_spec sampleState 1 9 [some 2, none] "x" "cert" (by decide)

/-! ### Claim C2 (requestValidation precondition) -/

/-- C2: requestValidation returns without error exactly when the network is
present in opportunistic mode and the server exists, is active, is in state
success, and the supplied mark equals the server's validation mark; in that
case it sets the server's validation state to in_process. -/
theorem requestValidation_spec (st : PDCState) (netId : Nat)
    (identity : ServerIdentity) (mark : Nat) :
    ((requestValidation st netId identity mark).ok = true ↔
      (alookup st.mPrivateDnsModes netId = some PrivateDnsMode.OPPORTUNISTIC ∧
        ∃ server, getPrivateDnsLocked st identity netId = some server ∧
          server.active = true ∧ server.validationState = Validation.success ∧
          server.validationMark = mark)) ∧
    ((requestValidation st netId identity mark).ok = true →
      validationStateOf (requestValidation st netId identity mark).st netId identity =
        some Validation.in_process) := by
  unfold requestValidation
  cases hm : alookup st.mPrivateDnsModes netId with
  | none => simp
  | some mode =>
    by_cases hmode : mode = PrivateDnsMode.OPPORTUNISTIC
    · subst hmode
      cases hg : getPrivateDnsLocked st identity netId with
      | none => simp
      | some server =>
        by_cases hact : server.active = false
        · simp [hact]
        · have hacttrue : server.active = true := by
            revert hact
            cases server.active <;> simp
          by_cases hvs : server.validationState = Validation.success
          · by_cases hmk : server.validationMark = mark
            · refine ⟨by simp [hacttrue, hvs, hmk], ?_⟩
              intro _
              have hcommit :=
                validationStateOf_updateServerState_self hg Validation.in_process
              simpa [hacttrue, hvs, hmk] using hcommit
            · simp [hacttrue, hvs, hmk]
          · simp [hacttrue, hvs]
    · simp [hmode]

/-- C2 witness: in the sample state the preconditions hold for mark 7, the
call succeeds and the server moves to in_process. -/
theorem requestValidation_spec_witness :
    ((requestValidation sampleState 1 sampleIdentity 7).ok = true ↔
      (alookup sampleState.mPrivateDnsModes 1 = some PrivateDnsMode.OPPORTUNISTIC ∧
        ∃ server, getPrivateDnsLocked sampleState sampleIdentity 1 = some server ∧
          server.active = true ∧ server.validationState = Validation.success ∧
          server.validationMark = 7)) ∧
    ((requestValidation sampleState 1 sampleIdentity 7).ok = true →
      validationStateOf (requestValidation sampleState 1 sampleIdentity 7).st 1
        sampleIdentity = some Validation.in_process) :=
  requestValidation_spec sampleState 1 sampleIdentity 7

end PrivateDnsConfiguration

/-! ### Claim C8 (getStatus) -/

namespace PrivateDnsConfiguration

/-- C8: getStatus of an unconfigured network is mode OFF with an empty
server map; for a configured network it returns the stored mode and its map
holds exactly the tracker's active DoT servers, each paired with its current
validation state. -/
theorem getStatus_spec (st : PDCState) (netId : Nat) :
    (alookup st.mPrivateDnsModes netId = none →
      getStatus st netId = PrivateDnsStatus.mk PrivateDnsMode.OFF []) ∧
    (∀ mode, alookup st.mPrivateDnsModes netId = some mode →
      (getStatus st netId).mode = mode ∧
      ∀ p : DnsTlsServer × Validation,
        p ∈ (getStatus st netId).serversMap ↔
          ∃ identity, (identity, p.1) ∈ trackerOf st netId ∧ p.1.dot = true ∧
            p.1.active = true ∧ p.2 = p.1.validationState) := by
  constructor
  · intro h
    unfold getStatus
    rw [h]
  · intro mode hm
    unfold getStatus
    rw [hm]
    refine ⟨rfl, ?_⟩
    intro p
    cases htr : alookup st.mPrivateDnsTransports netId with
    | none => simp [trackerOf, htr]
    | some tracker =>
      simp only [trackerOf, htr, Option.getD_some]
      constructor
      · intro hp
        rw [List.mem_map] at hp
        obtain ⟨q, hq, hpq⟩ := hp
        rw [List.mem_filter] at hq
        obtain ⟨hqmem, hcond⟩ := hq
        rw [Bool.and_eq_true] at hcond
        refine ⟨q.1, ?_, ?_, ?_, ?_⟩
        · rw [← hpq]
          simpa using hqmem
        · rw [← hpq]
          exact hcond.1
        · rw [← hpq]
          exact hcond.2
        · rw [← hpq]
      · rintro ⟨identity, hmem, hdot, hact, hps⟩
        rw [List.mem_map]
        refine ⟨(identity, p.1), ?_, ?_⟩
        · rw [List.mem_filter]
          exact ⟨hmem, by simp [hdot, hact]⟩
        · obtain ⟨s, v⟩ := p
          simp only at hps
          simp [hps]

/-- C8 witness: the sample state is configured opportunistic on network 1
with exactly its one active DoT server reported, and network 99 reads OFF
and empty. -/
theorem getStatus_spec_witness :
    getStatus sampleState 99 = PrivateDnsStatus.mk PrivateDnsMode.OFF [] ∧
    (getStatus sampleState 1).mode = PrivateDnsMode.OPPORTUNISTIC ∧
    ((sampleServer, Validation.success) ∈ (getStatus sampleState 1).serversMap ↔
      ∃ identity, (identity, sampleServer) ∈ trackerOf sampleState 1 ∧
        sampleServer.dot = true ∧ sampleServer.active = true ∧
        Validation.success = sampleServer.validationState) :=
  ⟨(getStatus_spec sampleState 99).1 (by decide),
    ((getStatus_spec sampleState 1).2 PrivateDnsMode.OPPORTUNISTIC (by decide)).1,
    ((getStatus_spec sampleState 1).2 PrivateDnsMode.OPPORTUNISTIC (by decide)).2
      (sampleServer, Validation.success)⟩

end PrivateDnsConfiguration

/-! ### Claim C1 (recordPrivateDnsValidation decision table) -/

namespace PrivateDnsConfiguration

/-- C1: for a state whose mode map and tracker map contain the network and
whose tracker holds the identity as an active server, the reevaluation
decision table holds: an answer with acceptable latency gives
DONT_REEVALUATE and commits success; no answer under mode OFF gives
DONT_REEVALUATE and commits fail; no answer under OPPORTUNISTIC outside a
revalidation gives DONT_REEVALUATE and commits fail; no answer under STRICT
without maxAttemptsReached gives NEEDS_REEVALUATION and commits in_process;
and maxAttemptsReached forces the return value DONT_REEVALUATE. -/
theorem recordPrivateDnsValidation_decision_table (st : PDCState)
    (identity : ServerIdentity) (netId : Nat) (mode : PrivateDnsMode)
    (tracker : PrivateDnsTracker) (server : DnsTlsServer)
    (gotAnswer isRevalidation latencyTooHigh maxAttemptsReached : Bool)
    (hm : alookup st.mPrivateDnsModes netId = some mode)
    (ht : alookup st.mPrivateDnsTransports netId = some tracker)
    (hs : alookup tracker identity = some server)
    (ha : server.active = true) :
    (gotAnswer = true → latencyTooHigh = false →
      (recordPrivateDnsValidation st identity netId gotAnswer isRevalidation
        latencyTooHigh maxAttemptsReached).reeval = DONT_REEVALUATE ∧
      validationStateOf (recordPrivateDnsValidation st identity netId gotAnswer
        isRevalidation latencyTooHigh maxAttemptsReached).st netId identity =
        some Validation.success) ∧
    (gotAnswer = false → mode = PrivateDnsMode.OFF →
      (recordPrivateDnsValidation st identity netId gotAnswer isRevalidation
        latencyTooHigh maxAttemptsReached).reeval = DONT_REEVALUATE ∧
      validationStateOf (recordPrivateDnsValidation st identity netId gotAnswer
        isRevalidation latencyTooHigh maxAttemptsReached).st netId identity =
        some Validation.fail) ∧
    (gotAnswer = false → mode = PrivateDnsMode.OPPORTUNISTIC →
        isRevalidation = false →
      (recordPrivateDnsValidation st identity netId gotAnswer isRevalidation
        latencyTooHigh maxAttemptsReached).reeval = DONT_REEVALUATE ∧
      validationStateOf (recordPrivateDnsValidation st identity netId gotAnswer
        isRevalidation latencyTooHigh maxAttemptsReached).st netId identity =
        some Validation.fail) ∧
    (gotAnswer = false → mode = PrivateDnsMode.STRICT → maxAttemptsReached = false →
      (recordPrivateDnsValidation st identity netId gotAnswer isRevalidation
        latencyTooHigh maxAttemptsReached).reeval = NEEDS_REEVALUATION ∧
      validationStateOf (recordPrivateDnsValidation st identity netId gotAnswer
        isRevalidation latencyTooHigh maxAttemptsReached).st netId identity =
        some Validation.in_process) ∧
    (maxAttemptsReached = true →
      (recordPrivateDnsValidation st identity netId gotAnswer isRevalidation
        latencyTooHigh maxAttemptsReached).reeval = DONT_REEVALUATE) := by
  have hgp : getPrivateDnsLocked st identity netId = some server := by
    unfold getPrivateDnsLocked
    rw [ht]
    exact hs
  have hupd : ∀ v : Validation,
      validationStateOf (updateServerState st identity v netId).1 netId identity =
        some v := fun v => validationStateOf_updateServerState_self hgp v
  unfold recordPrivateDnsValidation
  rw [ht, hm]
  cases gotAnswer <;> cases latencyTooHigh <;> cases maxAttemptsReached <;>
    cases isRevalidation <;> cases mode <;>
    simp [hs, ha, hupd, DONT_REEVALUATE, NEEDS_REEVALUATION]

/-- C1 witness: in the sample opportunistic state, a failed non-revalidation
probe answer is not reevaluated and the server is committed to fail. -/
theorem recordPrivateDnsValidation_decision_table_witness :
    (true = true → false = false →
      (recordPrivateDnsValidation sampleState sampleIdentity 1 true false false
        false).reeval = DONT_REEVALUATE ∧
      validationStateOf (recordPrivateDnsValidation sampleState sampleIdentity 1 true
        false false false).st 1 sampleIdentity = some Validation.success) ∧
    (true = false → PrivateDnsMode.OPPORTUNISTIC = PrivateDnsMode.OFF →
      (recordPrivateDnsValidation sampleState sampleIdentity 1 true false false
        false).reeval = DONT_REEVALUATE ∧
      validationStateOf (recordPrivateDnsValidation sampleState sampleIdentity 1 true
        false false false).st 1 sampleIdentity = some Validation.fail) ∧
    (true = false → PrivateDnsMode.OPPORTUNISTIC = PrivateDnsMode.OPPORTUNISTIC →
        false = false →
      (recordPrivateDnsValidation sampleState sampleIdentity 1 true false false
        false).reeval = DONT_REEVALUATE ∧
      validationStateOf (recordPrivateDnsValidation sampleState sampleIdentity 1 true
        false false false).st 1 sampleIdentity = some Validation.fail) ∧
    (true = false → PrivateDnsMode.OPPORTUNISTIC = PrivateDnsMode.STRICT →
        false = false →
      (recordPrivateDnsValidation sampleState sampleIdentity 1 true false false
        false).reeval = NEEDS_REEVALUATION ∧
      validationStateOf (recordPrivateDnsValidation sampleState sampleIdentity 1 true
        false false false).st 1 sampleIdentity = some Validation.in_process) ∧
    (false = true →
      (recordPrivateDnsValidation sampleState sampleIdentity 1 true false false
        false).reeval = DONT_REEVALUATE) :=
  recordPrivateDnsValidation_decision_table sampleState sampleIdentity 1
    PrivateDnsMode.OPPORTUNISTIC [(sampleIdentity, sampleServer)] sampleServer
    true false false false (by decide) (by decide) (by decide) (by decide)

end PrivateDnsConfiguration

/-! ### Lemmas about the tracker loop of set -/

namespace PrivateDnsConfiguration

theorem setServerAt_modes (st : PDCState) (netId : Nat) (identity : ServerIdentity)
    (s : DnsTlsServer) :
    (setServerAt st netId identity s).mPrivateDnsModes = st.mPrivateDnsModes := rfl

theorem transports_isSome_setServerAt (st : PDCState) (netId : Nat)
    (identity : ServerIdentity) (s : DnsTlsServer) (n : Nat) :
    (alookup (setServerAt st netId identity s).mPrivateDnsTransports n).isSome =
      (alookup st.mPrivateDnsTransports n).isSome := by
  unfold setServerAt
  simp only
  by_cases hn : n = netId
  · subst hn
    rw [alookup_aupdate_self]
    cases alookup st.mPrivateDnsTransports n <;> rfl
  · rw [alookup_aupdate_ne _ _ _ _ hn]

theorem trackerOf_setServerAt_other (st : PDCState) (netId : Nat)
    (identity : ServerIdentity) (s : DnsTlsServer) (n : Nat) (hn : n ≠ netId) :
    trackerOf (setServerAt st netId identity s) n = trackerOf st n := by
  unfold trackerOf setServerAt
  simp only
  rw [alookup_aupdate_ne _ _ _ _ hn]

theorem trackerOf_keys_setServerAt (st : PDCState) (netId : Nat)
    (identity : ServerIdentity) (s : DnsTlsServer)
    (hcont : acontains (trackerOf st netId) identity = true) (n : Nat) :
    (trackerOf (setServerAt st netId identity s) n).map Prod.fst =
      (trackerOf st n).map Prod.fst := by
  by_cases hn : n = netId
  · subst hn
    unfold trackerOf setServerAt
    simp only
    rw [alookup_aupdate_self]
    cases htr : alookup st.mPrivateDnsTransports n with
    | none => rfl
    | some tr =>
      simp only [Option.map_some', Option.getD_some]
      apply ainsert_keys_of_contains
      unfold trackerOf at hcont
      rw [htr] at hcont
      exact hcont
  · rw [trackerOf_setServerAt_other st netId identity s n hn]

theorem acontains_trackerOf_of_some {st : PDCState} {identity : ServerIdentity}
    {netId : Nat} {server : DnsTlsServer}
    (hg : getPrivateDnsLocked st identity netId = some server) :
    acontains (trackerOf st netId) identity = true := by
  obtain ⟨tr, htr, hid⟩ := getPrivateDnsLocked_some_elim hg
  unfold trackerOf
  rw [htr]
  simp [acontains, hid]

theorem trackerOf_keys_updateServerState (st : PDCState) (identity : ServerIdentity)
    (state : Validation) (netId : Nat) (n : Nat) :
    (trackerOf (updateServerState st identity state netId).1 n).map Prod.fst =
      (trackerOf st n).map Prod.fst := by
  unfold updateServerState
  cases hg : getPrivateDnsLocked st identity netId with
  | none => rfl
  | some server =>
    simp only []
    exact trackerOf_keys_setServerAt st netId identity
      { server with validationState := state } (acontains_trackerOf_of_some hg) n

theorem transports_isSome_updateServerState (st : PDCState) (identity : ServerIdentity)
    (state : Validation) (netId : Nat) (n : Nat) :
    (alookup (updateServerState st identity state netId).1.mPrivateDnsTransports
        n).isSome =
      (alookup st.mPrivateDnsTransports n).isSome := by
  unfold updateServerState
  cases hg : getPrivateDnsLocked st identity netId with
  | none => rfl
  | some server =>
    simp only []
    exact transports_isSome_setServerAt st netId identity
      { server with validationState := state } n

theorem setLoopStep_none {netId : Nat} {tmp : PrivateDnsTracker} {acc : LoopAcc}
    {identity : ServerIdentity}
    (hg : getPrivateDnsLocked acc.st identity netId = none) :
    setLoopStep netId tmp acc identity = acc := by
  unfold setLoopStep
  rw [hg]

end PrivateDnsConfiguration

namespace PrivateDnsConfiguration

theorem setLoopStep_spec {netId : Nat} {tmp : PrivateDnsTracker} {acc : LoopAcc}
    {identity : ServerIdentity} {server : DnsTlsServer}
    (hg : getPrivateDnsLocked acc.st identity netId = some server) :
    getPrivateDnsLocked (setLoopStep netId tmp acc identity).st identity netId =
      some (stepServer tmp identity server) ∧
    (setLoopStep netId tmp acc identity).probes =
      acc.probes ++
        (if needsValidation (stepServerMid tmp identity server) = true then
          [ProbeRequest.mk identity netId false] else []) ∧
    (∀ (identity' : ServerIdentity) (netId' : Nat), identity' ≠ identity →
      getPrivateDnsLocked (setLoopStep netId tmp acc identity).st identity' netId' =
        getPrivateDnsLocked acc.st identity' netId') ∧
    (setLoopStep netId tmp acc identity).st.mPrivateDnsModes =
      acc.st.mPrivateDnsModes ∧
    (∀ n : Nat, (trackerOf (setLoopStep netId tmp acc identity).st n).map Prod.fst =
      (trackerOf acc.st n).map Prod.fst) ∧
    (∀ n : Nat,
      (alookup (setLoopStep netId tmp acc identity).st.mPrivateDnsTransports n).isSome =
        (alookup acc.st.mPrivateDnsTransports n).isSome) := by
  obtain ⟨tr, htr, hid⟩ := getPrivateDnsLocked_some_elim hg
  have f1 : getPrivateDnsLocked (setServerAt acc.st netId identity
      { server with active := acontains tmp identity }) identity netId =
      some { server with active := acontains tmp identity } :=
    getPrivateDnsLocked_setServerAt_self htr
  unfold setLoopStep stepServer stepServerMid
  rw [hg]
  simp only []
  by_cases hc1 : acontains tmp identity = false ∧
      server.validationState = Validation.success
  · simp only [if_pos hc1]
    have f2 := getPrivateDnsLocked_updateServerState_self f1
      Validation.success_but_expired
    rw [f2]
    simp only []
    by_cases hnv : needsValidation { server with active := acontains tmp identity, validationState := Validation.success_but_expired } = true
    · simp only [if_pos hnv]
      refine ⟨?_, ?_, ?_, ?_, ?_, ?_⟩
      · simpa using getPrivateDnsLocked_updateServerState_self f2 Validation.in_process
      · trivial
      · intro identity' netId' hne
        rw [getPrivateDnsLocked_updateServerState_ne _ _ _ _ _ _ hne,
          getPrivateDnsLocked_updateServerState_ne _ _ _ _ _ _ hne,
          getPrivateDnsLocked_setServerAt_ne _ _ hne]
      · rw [updateServerState_modes, updateServerState_modes, setServerAt_modes]
      · intro n
        rw [trackerOf_keys_updateServerState, trackerOf_keys_updateServerState,
          trackerOf_keys_setServerAt _ _ _ _ (acontains_trackerOf_of_some hg) n]
      · intro n
        rw [transports_isSome_updateServerState, transports_isSome_updateServerState,
          transports_isSome_setServerAt]
    · simp only [if_neg hnv]
      refine ⟨?_, ?_, ?_, ?_, ?_, ?_⟩
      · simpa using f2
      · simp
      · intro identity' netId' hne
        rw [getPrivateDnsLocked_updateServerState_ne _ _ _ _ _ _ hne,
          getPrivateDnsLocked_setServerAt_ne _ _ hne]
      · rw [updateServerState_modes, setServerAt_modes]
      · intro n
        rw [trackerOf_keys_updateServerState,
          trackerOf_keys_setServerAt _ _ _ _ (acontains_trackerOf_of_some hg) n]
      · intro n
        rw [transports_isSome_updateServerState, transports_isSome_setServerAt]
  · simp only [if_neg hc1]
    rw [f1]
    simp only []
    by_cases hnv : needsValidation { server with active := acontains tmp identity } = true
    · simp only [if_pos hnv]
      refine ⟨?_, ?_, ?_, ?_, ?_, ?_⟩
      · simpa using getPrivateDnsLocked_updateServerState_self f1 Validation.in_process
      · trivial
      · intro identity' netId' hne
        rw [getPrivateDnsLocked_updateServerState_ne _ _ _ _ _ _ hne,
          getPrivateDnsLocked_setServerAt_ne _ _ hne]
      · rw [updateServerState_modes, setServerAt_modes]
      · intro n
        rw [trackerOf_keys_updateServerState,
          trackerOf_keys_setServerAt _ _ _ _ (acontains_trackerOf_of_some hg) n]
      · intro n
        rw [transports_isSome_updateServerState, transports_isSome_setServerAt]
    · simp only [if_neg hnv]
      refine ⟨?_, ?_, ?_, ?_, ?_, ?_⟩
      · simpa using f1
      · simp
      · intro identity' netId' hne
        rw [getPrivateDnsLocked_setServerAt_ne _ _ hne]
      · rw [setServerAt_modes]
      · intro n
        rw [trackerOf_keys_setServerAt _ _ _ _ (acontains_trackerOf_of_some hg) n]
      · intro n
        rw [transports_isSome_setServerAt]

end PrivateDnsConfiguration

namespace PrivateDnsConfiguration

theorem getPrivateDnsLocked_eq_trackerOf (st : PDCState) (identity : ServerIdentity)
    (netId : Nat) :
    getPrivateDnsLocked st identity netId = alookup (trackerOf st netId) identity := by
  unfold getPrivateDnsLocked trackerOf
  cases alookup st.mPrivateDnsTransports netId with
  | none => rfl
  | some tr => rfl

theorem probesFor_append (k : ServerIdentity) (ps qs : List ProbeRequest) :
    probesFor k (ps ++ qs) = probesFor k ps ++ probesFor k qs := by
  unfold probesFor
  exact List.filter_append _ _

theorem setLoopStep_modes_eq (netId : Nat) (tmp : PrivateDnsTracker) (acc : LoopAcc)
    (identity : ServerIdentity) :
    (setLoopStep netId tmp acc identity).st.mPrivateDnsModes =
      acc.st.mPrivateDnsModes := by
  cases hg : getPrivateDnsLocked acc.st identity netId with
  | none => rw [setLoopStep_none hg]
  | some server => exact (setLoopStep_spec hg).2.2.2.1

theorem setLoopStep_tracker_keys (netId : Nat) (tmp : PrivateDnsTracker) (acc : LoopAcc)
    (identity : ServerIdentity) (n : Nat) :
    (trackerOf (setLoopStep netId tmp acc identity).st n).map Prod.fst =
      (trackerOf acc.st n).map Prod.fst := by
  cases hg : getPrivateDnsLocked acc.st identity netId with
  | none => rw [setLoopStep_none hg]
  | some server => exact (setLoopStep_spec hg).2.2.2.2.1 n

theorem setLoopStep_transports_isSome (netId : Nat) (tmp : PrivateDnsTracker)
    (acc : LoopAcc) (identity : ServerIdentity) (n : Nat) :
    (alookup (setLoopStep netId tmp acc identity).st.mPrivateDnsTransports n).isSome =
      (alookup acc.st.mPrivateDnsTransports n).isSome := by
  cases hg : getPrivateDnsLocked acc.st identity netId with
  | none => rw [setLoopStep_none hg]
  | some server => exact (setLoopStep_spec hg).2.2.2.2.2 n

theorem setLoopStep_frame (netId : Nat) (tmp : PrivateDnsTracker) (acc : LoopAcc)
    (identity : ServerIdentity) (k : ServerIdentity) (netId' : Nat)
    (hne : k ≠ identity) :
    getPrivateDnsLocked (setLoopStep netId tmp acc identity).st k netId' =
      getPrivateDnsLocked acc.st k netId' := by
  cases hg : getPrivateDnsLocked acc.st identity netId with
  | none => rw [setLoopStep_none hg]
  | some server => exact (setLoopStep_spec hg).2.2.1 k netId' hne

theorem setLoopStep_probesFor_ne (netId : Nat) (tmp : PrivateDnsTracker) (acc : LoopAcc)
    (identity : ServerIdentity) (k : ServerIdentity) (hne : k ≠ identity) :
    probesFor k (setLoopStep netId tmp acc identity).probes =
      probesFor k acc.probes := by
  cases hg : getPrivateDnsLocked acc.st identity netId with
  | none => rw [setLoopStep_none hg]
  | some server =>
    rw [(setLoopStep_spec hg).2.1, probesFor_append]
    have hz : probesFor k
        (if needsValidation (stepServerMid tmp identity server) = true then
          [ProbeRequest.mk identity netId false] else []) = [] := by
      by_cases h : needsValidation (stepServerMid tmp identity server) = true <;>
        simp [h, probesFor, Ne.symm hne]
    rw [hz, List.append_nil]

theorem setLoop_fold_modes (netId : Nat) (tmp : PrivateDnsTracker)
    (keys : List ServerIdentity) (acc : LoopAcc) :
    (keys.foldl (setLoopStep netId tmp) acc).st.mPrivateDnsModes =
      acc.st.mPrivateDnsModes := by
  induction keys generalizing acc with
  | nil => rfl
  | cons a rest ih => rw [List.foldl_cons, ih, setLoopStep_modes_eq]

theorem setLoop_fold_tracker_keys (netId : Nat) (tmp : PrivateDnsTracker)
    (keys : List ServerIdentity) (acc : LoopAcc) (n : Nat) :
    (trackerOf (keys.foldl (setLoopStep netId tmp) acc).st n).map Prod.fst =
      (trackerOf acc.st n).map Prod.fst := by
  induction keys generalizing acc with
  | nil => rfl
  | cons a rest ih => rw [List.foldl_cons, ih, setLoopStep_tracker_keys]

theorem setLoop_fold_transports_isSome (netId : Nat) (tmp : PrivateDnsTracker)
    (keys : List ServerIdentity) (acc : LoopAcc) (n : Nat) :
    (alookup (keys.foldl (setLoopStep netId tmp) acc).st.mPrivateDnsTransports
        n).isSome =
      (alookup acc.st.mPrivateDnsTransports n).isSome := by
  induction keys generalizing acc with
  | nil => rfl
  | cons a rest ih => rw [List.foldl_cons, ih, setLoopStep_transports_isSome]

theorem setLoop_fold_frame (netId : Nat) (tmp : PrivateDnsTracker)
    (keys : List ServerIdentity) (acc : LoopAcc) (k : ServerIdentity) (netId' : Nat)
    (hk : k ∉ keys) :
    getPrivateDnsLocked (keys.foldl (setLoopStep netId tmp) acc).st k netId' =
      getPrivateDnsLocked acc.st k netId' ∧
    probesFor k (keys.foldl (setLoopStep netId tmp) acc).probes =
      probesFor k acc.probes := by
  induction keys generalizing acc with
  | nil => exact ⟨rfl, rfl⟩
  | cons a rest ih =>
    have hka : k ≠ a := fun h => hk (h ▸ List.mem_cons_self a rest)
    have hkrest : k ∉ rest := fun h => hk (List.mem_cons_of_mem a h)
    rw [List.foldl_cons]
    constructor
    · rw [(ih (setLoopStep netId tmp acc a) hkrest).1,
        setLoopStep_frame netId tmp acc a k netId' hka]
    · rw [(ih (setLoopStep netId tmp acc a) hkrest).2,
        setLoopStep_probesFor_ne netId tmp acc a k hka]

theorem setLoop_fold_spec (netId : Nat) (tmp : PrivateDnsTracker)
    (keys : List ServerIdentity) (acc : LoopAcc) (k : ServerIdentity)
    (hnd : keys.Nodup) (hk : k ∈ keys) {server : DnsTlsServer}
    (hg : getPrivateDnsLocked acc.st k netId = some server) :
    getPrivateDnsLocked (keys.foldl (setLoopStep netId tmp) acc).st k netId =
      some (stepServer tmp k server) ∧
    probesFor k (keys.foldl (setLoopStep netId tmp) acc).probes =
      probesFor k acc.probes ++
        (if needsValidation (stepServerMid tmp k server) = true then
          [ProbeRequest.mk k netId false] else []) := by
  induction keys generalizing acc with
  | nil => simp at hk
  | cons a rest ih =>
    rw [List.foldl_cons]
    rcases List.mem_cons.mp hk with heq | hmem
    · subst heq
      have hrest : k ∉ rest := (List.nodup_cons.mp hnd).1
      have hstep := @setLoopStep_spec netId tmp acc k server hg
      have hfr := setLoop_fold_frame netId tmp rest (setLoopStep netId tmp acc k) k
        netId hrest
      constructor
      · rw [hfr.1, hstep.1]
      · rw [hfr.2, hstep.2.1, probesFor_append]
        congr 1
        by_cases h : needsValidation (stepServerMid tmp k server) = true <;>
          simp [h, probesFor]
    · have hka : k ≠ a := by
        intro h
        subst h
        exact (List.nodup_cons.mp hnd).1 hmem
      have hnd' : rest.Nodup := (List.nodup_cons.mp hnd).2
      have hg' : getPrivateDnsLocked (setLoopStep netId tmp acc a).st k netId =
          some server := by
        rw [setLoopStep_frame netId tmp acc a k netId hka]
        exact hg
      have hrec := ih (setLoopStep netId tmp acc a) hnd' hmem hg'
      constructor
      · rw [hrec.1]
      · rw [hrec.2, setLoopStep_probesFor_ne netId tmp acc a k hka]

end PrivateDnsConfiguration

namespace PrivateDnsConfiguration

theorem alookup_mergeNewServers (tracker tmp : PrivateDnsTracker) (k : ServerIdentity) :
    alookup (mergeNewServers tracker tmp) k =
      match alookup tracker k with
      | some s => some s
      | none => alookup tmp k := by
  induction tmp generalizing tracker with
  | nil =>
    unfold mergeNewServers
    rw [List.foldl_nil]
    cases alookup tracker k <;> simp [alookup]
  | cons p rest ih =>
    obtain ⟨k1, v1⟩ := p
    unfold mergeNewServers
    rw [List.foldl_cons]
    simp only []
    unfold mergeNewServers at ih
    by_cases hc : acontains tracker k1 = true
    · rw [if_pos hc, ih tracker]
      cases ht : alookup tracker k with
      | some s => rfl
      | none =>
        rw [alookup_cons]
        by_cases hk : k = k1
        · subst hk
          obtain ⟨v, hv⟩ := (acontains_eq_true_iff tracker k).mp hc
          rw [hv] at ht
          cases ht
        · rw [if_neg hk]
    · rw [if_neg hc, ih (ainsert tracker k1 v1)]
      by_cases hk : k = k1
      · subst hk
        rw [alookup_ainsert_self, alookup_cons, if_pos rfl]
        have hnone : alookup tracker k = none := by
          rw [← acontains_eq_false_iff]
          exact Bool.not_eq_true _ ▸ Bool.of_not_eq_true hc
        rw [hnone]
      · rw [alookup_ainsert_ne _ _ _ _ hk, alookup_cons, if_neg hk]

theorem mergeNewServers_keys_nodup (tracker tmp : PrivateDnsTracker)
    (h : (tracker.map Prod.fst).Nodup) :
    ((mergeNewServers tracker tmp).map Prod.fst).Nodup := by
  induction tmp generalizing tracker with
  | nil => simpa [mergeNewServers] using h
  | cons p rest ih =>
    unfold mergeNewServers
    rw [List.foldl_cons]
    unfold mergeNewServers at ih
    by_cases hc : acontains tracker p.1 = true
    · rw [if_pos hc]
      exact ih tracker h
    · rw [if_neg hc]
      exact ih (ainsert tracker p.1 p.2) (ainsert_keys_nodup _ _ _ h)

theorem ensureTracker_modes (st : PDCState) (netId : Nat) :
    (ensureTracker st netId).mPrivateDnsModes = st.mPrivateDnsModes := by
  unfold ensureTracker
  by_cases hc : acontains st.mPrivateDnsTransports netId = true
  · rw [if_pos hc]
  · rw [if_neg hc]

theorem alookup_ensureTracker (st : PDCState) (netId : Nat) :
    alookup (ensureTracker st netId).mPrivateDnsTransports netId =
      some (trackerOf st netId) := by
  unfold ensureTracker trackerOf
  by_cases hc : acontains st.mPrivateDnsTransports netId = true
  · rw [if_pos hc]
    obtain ⟨tr, htr⟩ := (acontains_eq_true_iff _ _).mp hc
    rw [htr]
    rfl
  · rw [if_neg hc]
    simp only []
    rw [alookup_append]
    have hnone : alookup st.mPrivateDnsTransports netId = none := by
      rw [← acontains_eq_false_iff]
      exact Bool.not_eq_true _ ▸ Bool.of_not_eq_true hc
    rw [hnone]
    simp [alookup]

end PrivateDnsConfiguration


namespace PrivateDnsConfiguration

theorem setLoop_run_existing (netId : Nat) (tmp : PrivateDnsTracker) (st2 : PDCState)
    (hnd2 : trackerKeysNodup st2 netId) (k : ServerIdentity) (server : DnsTlsServer)
    (hg2 : getPrivateDnsLocked st2 k netId = some server) :
    getPrivateDnsLocked (((trackerOf st2 netId).map Prod.fst).foldl
        (setLoopStep netId tmp) (LoopAcc.mk st2 [] [])).st k netId =
      some (stepServer tmp k server) ∧
    probesFor k (((trackerOf st2 netId).map Prod.fst).foldl (setLoopStep netId tmp)
        (LoopAcc.mk st2 [] [])).probes =
      (if needsValidation (stepServerMid tmp k server) = true then
        [ProbeRequest.mk k netId false] else []) := by
  have hk : k ∈ (trackerOf st2 netId).map Prod.fst := by
    apply mem_keys_of_alookup
    rw [← getPrivateDnsLocked_eq_trackerOf]
    exact hg2
  have h := setLoop_fold_spec netId tmp ((trackerOf st2 netId).map Prod.fst)
    (LoopAcc.mk st2 [] []) k hnd2 hk hg2
  simpa [probesFor] using h

theorem setLoop_run_absent (netId : Nat) (tmp : PrivateDnsTracker) (st2 : PDCState)
    (k : ServerIdentity) (hg2 : getPrivateDnsLocked st2 k netId = none) :
    getPrivateDnsLocked (((trackerOf st2 netId).map Prod.fst).foldl
        (setLoopStep netId tmp) (LoopAcc.mk st2 [] [])).st k netId = none := by
  have hk : k ∉ (trackerOf st2 netId).map Prod.fst := by
    intro hmem
    exact alookup_ne_none_of_mem_keys hmem
      (by rw [← getPrivateDnsLocked_eq_trackerOf]; exact hg2)
  rw [(setLoop_fold_frame netId tmp _ _ k netId hk).1]
  exact hg2

theorem mergedState_transports (st : PDCState) (netId : Nat)
    (tmp : PrivateDnsTracker) :
    alookup (mergedState st netId tmp).mPrivateDnsTransports netId =
      some (mergeNewServers (trackerOf st netId) tmp) := by
  unfold mergedState
  simp only []
  rw [alookup_aupdate_self, alookup_ensureTracker]
  rfl

theorem mergedState_lookup (st : PDCState) (netId : Nat) (tmp : PrivateDnsTracker)
    (k : ServerIdentity) :
    getPrivateDnsLocked (mergedState st netId tmp) k netId =
      match getPrivateDnsLocked st k netId with
      | some s => some s
      | none => alookup tmp k := by
  unfold getPrivateDnsLocked
  rw [mergedState_transports]
  simp only []
  rw [alookup_mergeNewServers, ← getPrivateDnsLocked_eq_trackerOf]
  unfold getPrivateDnsLocked
  cases alookup st.mPrivateDnsTransports netId with
  | none => rfl
  | some tr => rfl

theorem mergedState_modes (st : PDCState) (netId : Nat) (tmp : PrivateDnsTracker) :
    (mergedState st netId tmp).mPrivateDnsModes = st.mPrivateDnsModes := by
  unfold mergedState
  simp only []
  rw [ensureTracker_modes]

theorem mergedState_nodup (st : PDCState) (netId : Nat) (tmp : PrivateDnsTracker)
    (hnd : trackerKeysNodup st netId) :
    trackerKeysNodup (mergedState st netId tmp) netId := by
  unfold trackerKeysNodup trackerOf
  rw [mergedState_transports]
  simp only [Option.getD_some]
  exact mergeNewServers_keys_nodup _ _ hnd

theorem setWithMode_eq (st : PDCState) (netId : Nat) (tmp : PrivateDnsTracker) :
    setWithMode st netId tmp =
      SetResult.mk 0
        (((trackerOf (mergedState st netId tmp) netId).map Prod.fst).foldl
          (setLoopStep netId tmp) (LoopAcc.mk (mergedState st netId tmp) [] [])).st
        (((trackerOf (mergedState st netId tmp) netId).map Prod.fst).foldl
          (setLoopStep netId tmp) (LoopAcc.mk (mergedState st netId tmp) [] [])).notifs
        (((trackerOf (mergedState st netId tmp) netId).map Prod.fst).foldl
          (setLoopStep netId tmp) (LoopAcc.mk (mergedState st netId tmp) [] [])).probes
      := rfl

theorem setWithMode_ret (st : PDCState) (netId : Nat) (tmp : PrivateDnsTracker) :
    (setWithMode st netId tmp).ret = 0 := rfl

theorem setWithMode_modes (st : PDCState) (netId : Nat) (tmp : PrivateDnsTracker) :
    (setWithMode st netId tmp).st.mPrivateDnsModes = st.mPrivateDnsModes := by
  rw [setWithMode_eq]
  simp only []
  rw [setLoop_fold_modes]
  exact mergedState_modes st netId tmp

theorem setWithMode_existing (st : PDCState) (netId : Nat) (tmp : PrivateDnsTracker)
    (hnd : trackerKeysNodup st netId) (k : ServerIdentity) (server : DnsTlsServer)
    (hgk : getPrivateDnsLocked st k netId = some server) :
    getPrivateDnsLocked (setWithMode st netId tmp).st k netId =
      some (stepServer tmp k server) ∧
    probesFor k (setWithMode st netId tmp).probes =
      (if needsValidation (stepServerMid tmp k server) = true then
        [ProbeRequest.mk k netId false] else []) := by
  have hg2 := mergedState_lookup st netId tmp k
  rw [hgk] at hg2
  simp only [] at hg2
  rw [setWithMode_eq]
  exact setLoop_run_existing netId tmp (mergedState st netId tmp)
    (mergedState_nodup st netId tmp hnd) k server hg2

theorem setWithMode_new (st : PDCState) (netId : Nat) (tmp : PrivateDnsTracker)
    (hnd : trackerKeysNodup st netId) (k : ServerIdentity) (s : DnsTlsServer)
    (hgk : getPrivateDnsLocked st k netId = none) (htk : alookup tmp k = some s) :
    getPrivateDnsLocked (setWithMode st netId tmp).st k netId =
      some (stepServer tmp k s) := by
  have hg2 := mergedState_lookup st netId tmp k
  rw [hgk] at hg2
  simp only [] at hg2
  rw [htk] at hg2
  rw [setWithMode_eq]
  exact (setLoop_run_existing netId tmp (mergedState st netId tmp)
    (mergedState_nodup st netId tmp hnd) k s hg2).1

theorem setWithMode_absent (st : PDCState) (netId : Nat) (tmp : PrivateDnsTracker)
    (k : ServerIdentity) (hgk : getPrivateDnsLocked st k netId = none)
    (htk : alookup tmp k = none) :
    getPrivateDnsLocked (setWithMode st netId tmp).st k netId = none := by
  have hg2 := mergedState_lookup st netId tmp k
  rw [hgk] at hg2
  simp only [] at hg2
  rw [htk] at hg2
  rw [setWithMode_eq]
  exact setLoop_run_absent netId tmp (mergedState st netId tmp) k hg2

theorem setWithMode_nodup (st : PDCState) (netId : Nat) (tmp : PrivateDnsTracker)
    (hnd : trackerKeysNodup st netId) :
    trackerKeysNodup (setWithMode st netId tmp).st netId := by
  rw [setWithMode_eq]
  unfold trackerKeysNodup
  unfold trackerOf
  have hmap := setLoop_fold_tracker_keys netId tmp
    ((trackerOf (mergedState st netId tmp) netId).map Prod.fst)
    (LoopAcc.mk (mergedState st netId tmp) [] []) netId
  unfold trackerOf at hmap
  simp only []
  rw [hmap]
  have hm := mergedState_nodup st netId tmp hnd
  unfold trackerKeysNodup trackerOf at hm
  exact hm

end PrivateDnsConfiguration

namespace PrivateDnsConfiguration

theorem stepServer_inactive (tmp : PrivateDnsTracker) (k : ServerIdentity)
    (server : DnsTlsServer) (h : acontains tmp k = false) :
    (stepServer tmp k server).active = false ∧
    (server.validationState = Validation.success →
      (stepServer tmp k server).validationState = Validation.success_but_expired) := by
  unfold stepServer stepServerMid needsValidation
  by_cases hvs : server.validationState = Validation.success <;> simp [h, hvs]

theorem stepServer_reactivated (tmp : PrivateDnsTracker) (k : ServerIdentity)
    (server : DnsTlsServer) (h : acontains tmp k = true)
    (hvs : server.validationState = Validation.success_but_expired) :
    (stepServer tmp k server).validationState = Validation.in_process ∧
    needsValidation (stepServerMid tmp k server) = true := by
  unfold stepServer stepServerMid needsValidation
  simp [h, hvs]

theorem stepServer_untouched (tmp : PrivateDnsTracker) (k : ServerIdentity)
    (server : DnsTlsServer)
    (h : server.validationState = Validation.in_process ∨
      (server.validationState = Validation.success ∧ acontains tmp k = true)) :
    needsValidation (stepServerMid tmp k server) = false ∧
    (stepServer tmp k server).validationState = server.validationState := by
  unfold stepServer stepServerMid needsValidation
  rcases h with h | ⟨h, hc⟩
  · by_cases hc : acontains tmp k = true <;> simp [h, hc]
  · simp [h, hc]

theorem stepServer_fields (tmp : PrivateDnsTracker) (k : ServerIdentity)
    (server : DnsTlsServer) :
    (stepServer tmp k server).name = server.name ∧
    (stepServer tmp k server).certificate = server.certificate ∧
    (stepServer tmp k server).mark = server.mark ∧
    (stepServer tmp k server).addr = server.addr ∧
    (stepServer tmp k server).dot = server.dot ∧
    (stepServer tmp k server).active = acontains tmp k := by
  unfold stepServer stepServerMid
  simp only []
  split_ifs <;> simp

theorem stepServer_success_inv (tmp : PrivateDnsTracker) (k : ServerIdentity)
    (server : DnsTlsServer)
    (h : (stepServer tmp k server).validationState = Validation.success) :
    acontains tmp k = true ∧ server.validationState = Validation.success ∧
    stepServer tmp k server = { server with active := true } := by
  by_cases hc : acontains tmp k = true
  · cases hv : server.validationState <;>
      simp_all [stepServer, stepServerMid, needsValidation]
  · have hc' : acontains tmp k = false := by
      revert hc
      cases acontains tmp k <;> simp
    cases hv : server.validationState <;>
      simp_all [stepServer, stepServerMid, needsValidation]

theorem stepServer_active_success (tmp : PrivateDnsTracker) (k : ServerIdentity)
    (server : DnsTlsServer) (hc : acontains tmp k = true)
    (hv : server.validationState = Validation.success) :
    (stepServer tmp k server).validationState = Validation.success := by
  unfold stepServer stepServerMid needsValidation
  simp [hc, hv]

theorem set_eq_of_buildTmp_none (st : PDCState) (netId mark : Nat)
    (servers : List (Option Nat)) (name caCert : String)
    (hb : buildTmp servers name caCert mark = none) :
    set st netId mark servers name caCert = SetResult.mk (-EINVAL) st [] [] := by
  unfold set
  rw [hb]

theorem set_reduces_to_setWithMode (st : PDCState) (netId mark : Nat)
    (servers : List (Option Nat)) (name caCert : String) (tmp : PrivateDnsTracker)
    (htmp : buildTmp servers name caCert mark = some tmp)
    (hmode : name ≠ "" ∨ tmp ≠ []) :
    ∃ modes', set st netId mark servers name caCert =
      setWithMode { st with mPrivateDnsModes := modes' } netId tmp := by
  unfold set
  rw [htmp]
  simp only []
  by_cases hname : name ≠ ""
  · rw [if_pos hname]
    exact ⟨_, rfl⟩
  · rw [if_neg hname]
    have hn : name = "" := not_not.mp (by simpa using hname)
    have htmpne : tmp ≠ [] := by
      rcases hmode with h | h
      · exact absurd hn h
      · exact h
    rw [if_pos htmpne]
    exact ⟨_, rfl⟩

theorem set_off_result (st : PDCState) (netId mark : Nat)
    (servers : List (Option Nat)) (name caCert : String)
    (htmp : buildTmp servers name caCert mark = some [])
    (hname : name = "") :
    set st netId mark servers name caCert =
      SetResult.mk 0
        { st with
          mPrivateDnsModes := ainsert st.mPrivateDnsModes netId PrivateDnsMode.OFF,
          mPrivateDnsTransports := aerase st.mPrivateDnsTransports netId }
        [] [] := by
  unfold set
  rw [htmp]
  simp only []
  rw [if_neg (not_not_intro hname), if_neg (not_not_intro rfl)]

end PrivateDnsConfiguration

/-! ### Claim C3 (mode determination in set) -/

namespace PrivateDnsConfiguration

/-- C3: when every server address parses, set makes the network STRICT for a
non-empty provider name, else OPPORTUNISTIC for a non-empty server list, and
otherwise OFF, erasing the network's tracker entirely and returning success
with no validation scheduled. -/
theorem set_mode_spec (st : PDCState) (netId mark : Nat) (servers : List (Option Nat))
    (name caCert : String) (hparse : ∀ os ∈ servers, os ≠ none) :
    (name ≠ "" →
      alookup (set st netId mark servers name caCert).st.mPrivateDnsModes netId =
        some PrivateDnsMode.STRICT) ∧
    (name = "" → servers ≠ [] →
      alookup (set st netId mark servers name caCert).st.mPrivateDnsModes netId =
        some PrivateDnsMode.OPPORTUNISTIC) ∧
    (name = "" → servers = [] →
      (set st netId mark servers name caCert).ret = 0 ∧
      alookup (set st netId mark servers name caCert).st.mPrivateDnsModes netId =
        some PrivateDnsMode.OFF ∧
      alookup (set st netId mark servers name caCert).st.mPrivateDnsTransports netId =
        none ∧
      (set st netId mark servers name caCert).probes = []) := by
  obtain ⟨tmp, htmp⟩ := buildTmpFrom_isSome hparse []
  have htmp' : buildTmp servers name caCert mark = some tmp := htmp
  refine ⟨?_, ?_, ?_⟩
  · intro hname
    unfold set
    rw [htmp']
    simp only []
    rw [if_pos hname, setWithMode_modes]
    simp only []
    exact alookup_ainsert_self _ _ _
  · intro hname hs
    unfold set
    rw [htmp']
    simp only []
    rw [if_neg (not_not_intro hname), if_pos (buildTmp_ne_nil htmp' hs),
      setWithMode_modes]
    simp only []
    exact alookup_ainsert_self _ _ _
  · intro hname hs
    subst hs
    have htmpnil : tmp = [] := by
      simp only [buildTmp, buildTmpFrom, Option.some_inj] at htmp'
      exact htmp'.symm
    subst htmpnil
    rw [set_off_result st netId mark [] name caCert htmp' hname]
    refine ⟨rfl, ?_, ?_, rfl⟩
    · simp only []
      exact alookup_ainsert_self _ _ _
    · simp only []
      exact alookup_aerase_self _ _

/-- C3 witness: a strict call, an opportunistic call and an off call on the
sample state take the modes the claim says. -/
theorem set_mode_spec_witness :
    alookup (set sampleState 1 9 [some 2] "x" "c").st.mPrivateDnsModes 1 =
      some PrivateDnsMode.STRICT ∧
    alookup (set sampleState 1 9 [some 2] "" "c").st.mPrivateDnsModes 1 =
      some PrivateDnsMode.OPPORTUNISTIC ∧
    ((set sampleState 1 9 ([] : List (Option Nat)) "" "c").ret = 0 ∧
      alookup (set sampleState 1 9 [] "" "c").st.mPrivateDnsModes 1 =
        some PrivateDnsMode.OFF ∧
      alookup (set sampleState 1 9 [] "" "c").st.mPrivateDnsTransports 1 = none ∧
      (set sampleState 1 9 [] "" "c").probes = []) :=
  ⟨(set_mode_spec sampleState 1 9 [some 2] "x" "c" (by decide)).1 (by decide),
    (set_mode_spec sampleState 1 9 [some 2] "" "c" (by decide)).2.1 rfl (by decide),
    (set_mode_spec sampleState 1 9 [] "" "c" (by decide)).2.2 rfl rfl⟩

/-! ### Claim C5 (deactivation and reactivation in set) -/

/-- C5: for a set call that keeps private DNS on, a tracker server absent
from the new list is kept but deactivated, degrading success to
success_but_expired, and a success_but_expired server reactivated by the new
list is set to in_process with a validation probe launched for it. -/
theorem set_deactivation_reactivation_spec (st : PDCState) (netId mark : Nat)
    (servers : List (Option Nat)) (name caCert : String) (tmp : PrivateDnsTracker)
    (hnd : trackerKeysNodup st netId)
    (htmp : buildTmp servers name caCert mark = some tmp)
    (hmode : name ≠ "" ∨ tmp ≠ [])
    (k : ServerIdentity) (server : DnsTlsServer)
    (hgk : getPrivateDnsLocked st k netId = some server) :
    (acontains tmp k = false →
      ∃ server',
        getPrivateDnsLocked (set st netId mark servers name caCert).st k netId =
          some server' ∧ server'.active = false ∧
        (server.validationState = Validation.success →
          server'.validationState = Validation.success_but_expired)) ∧
    (server.validationState = Validation.success_but_expired → acontains tmp k = true →
      ∃ server',
        getPrivateDnsLocked (set st netId mark servers name caCert).st k netId =
          some server' ∧ server'.validationState = Validation.in_process ∧
        ProbeRequest.mk k netId false ∈ (set st netId mark servers name caCert).probes) := by
  obtain ⟨modes', hset⟩ :=
    set_reduces_to_setWithMode st netId mark servers name caCert tmp htmp hmode
  have hnd' : trackerKeysNodup { st with mPrivateDnsModes := modes' } netId := hnd
  have hgk' : getPrivateDnsLocked { st with mPrivateDnsModes := modes' } k netId =
      some server := by
    rw [getPrivateDnsLocked_congr_transports
      (show ({ st with mPrivateDnsModes := modes' } : PDCState).mPrivateDnsTransports =
        st.mPrivateDnsTransports from rfl) k netId]
    exact hgk
  have hmain := setWithMode_existing { st with mPrivateDnsModes := modes' } netId tmp
    hnd' k server hgk'
  constructor
  · intro hc
    refine ⟨stepServer tmp k server, ?_, ?_, ?_⟩
    · rw [hset]
      exact hmain.1
    · exact (stepServer_inactive tmp k server hc).1
    · exact (stepServer_inactive tmp k server hc).2
  · intro hvs hc
    refine ⟨stepServer tmp k server, ?_, ?_, ?_⟩
    · rw [hset]
      exact hmain.1
    · exact (stepServer_reactivated tmp k server hc hvs).1
    · rw [hset]
      have hprobes := hmain.2
      rw [(stepServer_reactivated tmp k server hc hvs).2] at hprobes
      simp only [if_pos rfl] at hprobes
      have hmem : ProbeRequest.mk k netId false ∈
          probesFor k (setWithMode { st with mPrivateDnsModes := modes' } netId
            tmp).probes := by
        rw [hprobes]
        simp
      exact List.mem_of_mem_filter hmem

/-- C5 witness: the sample success server is deactivated and degraded by a
set call listing only a different address. -/
theorem set_deactivation_reactivation_spec_witness :
    (acontains [(sampleIdentityB, makeServer 2 "" "c" 9)] sampleIdentity = false →
      ∃ server',
        getPrivateDnsLocked (set sampleState 1 9 [some 2] "" "c").st sampleIdentity 1 =
          some server' ∧ server'.active = false ∧
        (sampleServer.validationState = Validation.success →
          server'.validationState = Validation.success_but_expired)) ∧
    (sampleServer.validationState = Validation.success_but_expired →
      acontains [(sampleIdentityB, makeServer 2 "" "c" 9)] sampleIdentity = true →
      ∃ server',
        getPrivateDnsLocked (set sampleState 1 9 [some 2] "" "c").st sampleIdentity 1 =
          some server' ∧ server'.validationState = Validation.in_process ∧
        ProbeRequest.mk sampleIdentity 1 false ∈
          (set sampleState 1 9 [some 2] "" "c").probes) :=
  set_deactivation_reactivation_spec sampleState 1 9 [some 2] "" "c"
    [(sampleIdentityB, makeServer 2 "" "c" 9)]
    (by unfold trackerKeysNodup; decide) (by decide)
    (Or.inr (by decide)) sampleIdentity sampleServer (by decide)

end PrivateDnsConfiguration

/-! ### Claim C9 (existing tracker entries keep their stored server object) -/

namespace PrivateDnsConfiguration

/-- C9: under a set call that keeps private DNS on, an identity already in
the tracker keeps its stored server object: name, certificate, mark, address
and transport are unchanged (the newly supplied values are discarded) and
only the active flag is recomputed; the newly supplied fields take effect
only for identities not previously tracked. -/
theorem set_existing_server_frame (st : PDCState) (netId mark : Nat)
    (servers : List (Option Nat)) (name caCert : String) (tmp : PrivateDnsTracker)
    (hnd : trackerKeysNodup st netId)
    (htmp : buildTmp servers name caCert mark = some tmp)
    (hmode : name ≠ "" ∨ tmp ≠ []) :
    (∀ (k : ServerIdentity) (server : DnsTlsServer),
      getPrivateDnsLocked st k netId = some server →
      ∃ server',
        getPrivateDnsLocked (set st netId mark servers name caCert).st k netId =
          some server' ∧
        server'.name = server.name ∧ server'.certificate = server.certificate ∧
        server'.mark = server.mark ∧ server'.addr = server.addr ∧
        server'.dot = server.dot ∧ server'.active = acontains tmp k) ∧
    (∀ (k : ServerIdentity) (server' : DnsTlsServer),
      getPrivateDnsLocked st k netId = none →
      getPrivateDnsLocked (set st netId mark servers name caCert).st k netId =
        some server' →
      server'.name = name ∧ server'.certificate = caCert ∧ server'.mark = mark) := by
  obtain ⟨modes', hset⟩ :=
    set_reduces_to_setWithMode st netId mark servers name caCert tmp htmp hmode
  have hnd' : trackerKeysNodup { st with mPrivateDnsModes := modes' } netId := hnd
  have htreq : ({ st with mPrivateDnsModes := modes' } : PDCState).mPrivateDnsTransports =
      st.mPrivateDnsTransports := rfl
  constructor
  · intro k server hgk
    have hgk' : getPrivateDnsLocked { st with mPrivateDnsModes := modes' } k netId =
        some server := by
      rw [getPrivateDnsLocked_congr_transports htreq k netId]
      exact hgk
    have hmain := setWithMode_existing { st with mPrivateDnsModes := modes' } netId tmp
      hnd' k server hgk'
    have hf := stepServer_fields tmp k server
    refine ⟨stepServer tmp k server, ?_, hf.1, hf.2.1, hf.2.2.1, hf.2.2.2.1,
      hf.2.2.2.2.1, hf.2.2.2.2.2⟩
    rw [hset]
    exact hmain.1
  · intro k server' hgk hres
    have hgk' : getPrivateDnsLocked { st with mPrivateDnsModes := modes' } k netId =
        none := by
      rw [getPrivateDnsLocked_congr_transports htreq k netId]
      exact hgk
    cases htk : alookup tmp k with
    | none =>
      have habs := setWithMode_absent { st with mPrivateDnsModes := modes' } netId tmp
        k hgk' htk
      rw [hset, habs] at hres
      cases hres
    | some s =>
      have hnew := setWithMode_new { st with mPrivateDnsModes := modes' } netId tmp
        hnd' k s hgk' htk
      rw [hset, hnew] at hres
      have hs : server' = stepServer tmp k s := by
        injection hres with h
        exact h.symm
      subst hs
      have hvals := buildTmp_values htmp (k, s) (mem_of_alookup htk)
      have hf := stepServer_fields tmp k s
      exact ⟨hf.1.trans hvals.1, hf.2.1.trans hvals.2.1, hf.2.2.1.trans hvals.2.2.1⟩

/-- C9 witness: in the sample state, a set call with new name, certificate
and mark keeps the existing server's stored fields and applies the new
fields only to the fresh identity. -/
theorem set_existing_server_frame_witness :
    (∀ (k : ServerIdentity) (server : DnsTlsServer),
      getPrivateDnsLocked sampleState k 1 = some server →
      ∃ server',
        getPrivateDnsLocked (set sampleState 1 9 [some 1, some 2] "" "c2").st k 1 =
          some server' ∧
        server'.name = server.name ∧ server'.certificate = server.certificate ∧
        server'.mark = server.mark ∧ server'.addr = server.addr ∧
        server'.dot = server.dot ∧
        server'.active = acontains [(sampleIdentity, makeServer 1 "" "c2" 9),
          (sampleIdentityB, makeServer 2 "" "c2" 9)] k) ∧
    (∀ (k : ServerIdentity) (server' : DnsTlsServer),
      getPrivateDnsLocked sampleState k 1 = none →
      getPrivateDnsLocked (set sampleState 1 9 [some 1, some 2] "" "c2").st k 1 =
        some server' →
      server'.name = "" ∧ server'.certificate = "c2" ∧ server'.mark = 9) :=
  set_existing_server_frame sampleState 1 9 [some 1, some 2] "" "c2"
    [(sampleIdentity, makeServer 1 "" "c2" 9), (sampleIdentityB, makeServer 2 "" "c2" 9)]
    (by unfold trackerKeysNodup; decide) (by decide) (Or.inr (by decide))

end PrivateDnsConfiguration

/-! ### Claim C4 (needs-validation policy; corrected) -/

namespace PrivateDnsConfiguration

/-- C4 counterexample: a server in state success is not left untouched by
set when it is dropped from the new server list; its state is changed to
success_but_expired, refuting the claim as stated. -/
theorem needsValidation_untouched_cex :
    validationStateOf sampleState 1 sampleIdentity = some Validation.success ∧
    validationStateOf (set sampleState 1 0 [some 2] "" "").st 1 sampleIdentity =
      some Validation.success_but_expired := by decide

/-- C4 (amended): needsValidation holds iff the server is active and its
state is unknown_server, fail or success_but_expired; consequently a set
call leaves a server whose state is in_process, or whose state is success
and whose identity is in the new list, with its validation state unchanged
and no probe launched for it. -/
theorem needsValidation_spec_amended (st : PDCState) (netId mark : Nat)
    (servers : List (Option Nat)) (name caCert : String) (tmp : PrivateDnsTracker)
    (hnd : trackerKeysNodup st netId)
    (htmp : buildTmp servers name caCert mark = some tmp) :
    (∀ server : DnsTlsServer, needsValidation server = true ↔
      (server.active = true ∧ (server.validationState = Validation.unknown_server ∨
        server.validationState = Validation.fail ∨
        server.validationState = Validation.success_but_expired))) ∧
    (∀ (k : ServerIdentity) (server : DnsTlsServer),
      getPrivateDnsLocked st k netId = some server →
      (server.validationState = Validation.in_process ∨
        (server.validationState = Validation.success ∧ acontains tmp k = true)) →
      probesFor k (set st netId mark servers name caCert).probes = [] ∧
      ∀ server',
        getPrivateDnsLocked (set st netId mark servers name caCert).st k netId =
          some server' → server'.validationState = server.validationState) := by
  constructor
  · intro server
    unfold needsValidation
    cases ha : server.active <;> cases hv : server.validationState <;> simp [ha, hv]
  · intro k server hgk hcase
    by_cases hmode : name ≠ "" ∨ tmp ≠ []
    · obtain ⟨modes', hset⟩ :=
        set_reduces_to_setWithMode st netId mark servers name caCert tmp htmp hmode
      have hnd' : trackerKeysNodup { st with mPrivateDnsModes := modes' } netId := hnd
      have hgk' : getPrivateDnsLocked { st with mPrivateDnsModes := modes' } k netId =
          some server := by
        rw [getPrivateDnsLocked_congr_transports
          (show ({ st with mPrivateDnsModes := modes' } : PDCState).mPrivateDnsTransports
            = st.mPrivateDnsTransports from rfl) k netId]
        exact hgk
      have hmain := setWithMode_existing { st with mPrivateDnsModes := modes' } netId
        tmp hnd' k server hgk'
      have hu := stepServer_untouched tmp k server hcase
      constructor
      · rw [hset, hmain.2, hu.1]
        simp
      · intro server' hres
        rw [hset, hmain.1] at hres
        injection hres with h
        rw [← h]
        exact hu.2
    · push_neg at hmode
      obtain ⟨hname, htmpnil⟩ := hmode
      subst htmpnil
      rw [set_off_result st netId mark servers name caCert htmp hname]
      constructor
      · simp [probesFor]
      · intro server' hres
        have hnone : getPrivateDnsLocked
            { st with
              mPrivateDnsModes := ainsert st.mPrivateDnsModes netId PrivateDnsMode.OFF,
              mPrivateDnsTransports := aerase st.mPrivateDnsTransports netId } k
            netId = none := by
          unfold getPrivateDnsLocked
          simp only []
          rw [alookup_aerase_self]
        rw [hnone] at hres
        cases hres

/-- C4 witness for the amended claim: in the sample state, re-listing the
successful server leaves its state and launches no probe for it. -/
theorem needsValidation_spec_amended_witness :
    (∀ server : DnsTlsServer, needsValidation server = true ↔
      (server.active = true ∧ (server.validationState = Validation.unknown_server ∨
        server.validationState = Validation.fail ∨
        server.validationState = Validation.success_but_expired))) ∧
    (∀ (k : ServerIdentity) (server : DnsTlsServer),
      getPrivateDnsLocked sampleState k 1 = some server →
      (server.validationState = Validation.in_process ∨
        (server.validationState = Validation.success ∧
          acontains [(sampleIdentity, makeServer 1 "" "c" 7)] k = true)) →
      probesFor k (set sampleState 1 7 [some 1] "" "c").probes = [] ∧
      ∀ server',
        getPrivateDnsLocked (set sampleState 1 7 [some 1] "" "c").st k 1 =
          some server' → server'.validationState = server.validationState) :=
  needsValidation_spec_amended sampleState 1 7 [some 1] "" "c"
    [(sampleIdentity, makeServer 1 "" "c" 7)]
    (by unfold trackerKeysNodup; decide) (by decide)

end PrivateDnsConfiguration

/-! ### Claim C7 (idempotence of set on successful servers) -/

namespace PrivateDnsConfiguration

/-- C7: calling set twice in succession with identical server list, provider
name, certificate and mark leaves a server that is in state success after
the first call still in state success after the second call. -/
theorem set_idempotent_on_success (st : PDCState) (netId mark : Nat)
    (servers : List (Option Nat)) (name caCert : String) (k : ServerIdentity)
    (hnd : trackerKeysNodup st netId)
    (h1 : validationStateOf (set st netId mark servers name caCert).st netId k =
      some Validation.success) :
    validationStateOf
      (set (set st netId mark servers name caCert).st netId mark servers name
        caCert).st netId k = some Validation.success := by
  cases hb : buildTmp servers name caCert mark with
  | none =>
    have hst : (set st netId mark servers name caCert).st = st := by
      rw [set_eq_of_buildTmp_none st netId mark servers name caCert hb]
    rw [hst] at h1
    rw [hst, hst]
    exact h1
  | some tmp =>
    by_cases hmode : name ≠ "" ∨ tmp ≠ []
    · obtain ⟨modes', hset⟩ :=
        set_reduces_to_setWithMode st netId mark servers name caCert tmp hb hmode
      have hnd' : trackerKeysNodup { st with mPrivateDnsModes := modes' } netId := hnd
      rw [hset] at h1
      cases hgk : getPrivateDnsLocked st k netId with
      | some server =>
        have hgk' : getPrivateDnsLocked { st with mPrivateDnsModes := modes' } k netId
            = some server := by
          rw [getPrivateDnsLocked_congr_transports
            (show ({ st with mPrivateDnsModes := modes' } :
              PDCState).mPrivateDnsTransports = st.mPrivateDnsTransports from rfl) k
            netId]
          exact hgk
        have hmain := setWithMode_existing { st with mPrivateDnsModes := modes' }
          netId tmp hnd' k server hgk'
        unfold validationStateOf at h1
        rw [hmain.1] at h1
        simp only [Option.map_some', Option.some_inj] at h1
        have hinv := stepServer_success_inv tmp k server h1
        have hfinal : getPrivateDnsLocked
            (setWithMode { st with mPrivateDnsModes := modes' } netId tmp).st k netId =
            some { server with active := true } := by
          rw [hmain.1, hinv.2.2]
        have hnd2 : trackerKeysNodup
            (setWithMode { st with mPrivateDnsModes := modes' } netId tmp).st netId :=
          setWithMode_nodup { st with mPrivateDnsModes := modes' } netId tmp hnd'
        obtain ⟨modes2, hset2⟩ := set_reduces_to_setWithMode
          (setWithMode { st with mPrivateDnsModes := modes' } netId tmp).st netId mark
          servers name caCert tmp hb hmode
        rw [hset, hset2]
        have hgk2 : getPrivateDnsLocked
            { (setWithMode { st with mPrivateDnsModes := modes' } netId tmp).st with
              mPrivateDnsModes := modes2 } k netId =
            some { server with active := true } :=
          (getPrivateDnsLocked_congr_transports rfl k netId).trans hfinal
        have hnd2' : trackerKeysNodup
            { (setWithMode { st with mPrivateDnsModes := modes' } netId tmp).st with
              mPrivateDnsModes := modes2 } netId := hnd2
        have hmain2 := setWithMode_existing _ netId tmp hnd2' k
          { server with active := true } hgk2
        unfold validationStateOf
        rw [hmain2.1]
        simp only [Option.map_some', Option.some_inj]
        exact stepServer_active_success tmp k { server with active := true } hinv.1
          hinv.2.1
      | none =>
        have hgk' : getPrivateDnsLocked { st with mPrivateDnsModes := modes' } k netId
            = none := by
          rw [getPrivateDnsLocked_congr_transports
            (show ({ st with mPrivateDnsModes := modes' } :
              PDCState).mPrivateDnsTransports = st.mPrivateDnsTransports from rfl) k
            netId]
          exact hgk
        cases htk : alookup tmp k with
        | none =>
          have habs := setWithMode_absent { st with mPrivateDnsModes := modes' } netId
            tmp k hgk' htk
          unfold validationStateOf at h1
          rw [habs] at h1
          cases h1
        | some s =>
          have hnew := setWithMode_new { st with mPrivateDnsModes := modes' } netId
            tmp hnd' k s hgk' htk
          unfold validationStateOf at h1
          rw [hnew] at h1
          simp only [Option.map_some', Option.some_inj] at h1
          have hinv := stepServer_success_inv tmp k s h1
          have hvals := buildTmp_values hb (k, s) (mem_of_alookup htk)
          have hcontr : Validation.unknown_server = Validation.success := by
            rw [← hvals.2.2.2.2.1]
            exact hinv.2.1
          cases hcontr
    · push_neg at hmode
      obtain ⟨hname, htmpnil⟩ := hmode
      subst htmpnil
      rw [set_off_result st netId mark servers name caCert hb hname] at h1
      unfold validationStateOf at h1
      have hnone : getPrivateDnsLocked
          { st with
            mPrivateDnsModes := ainsert st.mPrivateDnsModes netId PrivateDnsMode.OFF,
            mPrivateDnsTransports := aerase st.mPrivateDnsTransports netId } k
          netId = none := by
        unfold getPrivateDnsLocked
        simp only []
        rw [alookup_aerase_self]
      rw [hnone] at h1
      cases h1

/-- C7 witness: re-issuing the identical opportunistic configuration keeps
the sample server in state success. -/
theorem set_idempotent_on_success_witness :
    validationStateOf
      (set (set sampleState 1 7 [some 1] "" "c").st 1 7 [some 1] "" "c").st 1
      sampleIdentity = some Validation.success :=
  set_idempotent_on_success sampleState 1 7 [some 1] "" "c" sampleIdentity
    (by unfold trackerKeysNodup; decide) (by decide)

end PrivateDnsConfiguration
